import Mathlib

/-!
Verification development for the kafka-microservices-spark-ecom repository.

Shallow embedding of the four core components:
* the optimistic-concurrency inventory ledger
  (services/inventory-service/repository.py),
* the saga orchestrator of the order service
  (services/order-service/saga_handler.py, repository.py),
* the inventory-service event handler (services/inventory-service/main.py),
* the idempotent/retrying consumer with dead-letter routing
  (shared/kafka_client.py).

Python integers are modelled as Int (stock, quantities) or Nat (versions,
counters); SQL rows are lists of structures; wall-clock timestamps and the
uuid generator are modelled by deterministic counters (their values are
never branched on by the code under verification).  Handlers that raise are
modelled by Bool / Option outcomes.
-/

namespace ECom

/-- An order line item, as carried in the items JSON list
(product_id, quantity keys read by inventory-service/main.py). -/
structure Item where
  product_id : String
  quantity : Int
deriving Repr, DecidableEq

/-- The inbound event envelope (shared/events.py): the union of the fields
the saga handlers read.  reason is Option because the code reads it with
getattr(event, "reason", default). cancellation_source is Option because
the inventory handler reads it defensively with getattr(..., None). -/
structure Event where
  event_id : String
  event_type : String
  correlation_id : String
  order_id : String
  user_id : String
  items : List Item
  total_amount : Int
  product_id : String
  reason : Option String
  cancellation_source : Option String
deriving Repr, DecidableEq

namespace Inventory

/-! ### services/inventory-service/repository.py, single-product view

reserve_stock operates on one product row; concurrent writers are modelled
by interference functions applied between the atomic DB accesses. -/

/-- The (stock, version) columns of one products row
(services/inventory-service/models.py). -/
structure Product where
  stock : Int
  version : Nat
deriving Repr, DecidableEq

/-- One stock_reservations row (without the uuid primary key). -/
structure StockReservation where
  order_id : String
  product_id : String
  quantity : Int
deriving Repr, DecidableEq

/-- InventoryRepository.MAX_RETRIES. -/
def MAX_RETRIES : Nat := 3

/-- Instrumented outcome of reserve_stock: the returned Bool, the final
product row, the stock_reservations rows inserted, and how many
version-guarded UPDATE statements were attempted. -/
structure ReserveOutcome where
  ok : Bool
  product : Product
  newReservations : List StockReservation
  updateAttempts : Nat
deriving Repr, DecidableEq

/-- The retry loop of InventoryRepository.reserve_stock.

Each list element (g, f) is one loop iteration of
`for attempt in range(MAX_RETRIES)`: g is the concurrent interference on
the product row before this iteration reads it (get_product), f the
interference between that read and the version-guarded conditional
UPDATE.  An empty list means the attempt budget is exhausted (the
`return False` after the loop).  The product is assumed to exist
(the not-found branch also just returns False).

Iteration body, line by line:
* `product = self.get_product(product_id)` — the row g p;
* `if product.stock < quantity: return False` — immediate business
  rejection, no UPDATE attempted;
* the conditional UPDATE `stock = stock - quantity, version =
  current_version + 1 WHERE version = current_version` fires iff the
  version at UPDATE time (after f) still equals the observed version;
* `updated == 0` falls through to the next iteration (continue) or, on
  the last attempt, returns False. -/
def reserve_stock_go (order_id product_id : String) (quantity : Int) :
    List ((Product → Product) × (Product → Product)) → Product → ReserveOutcome
  | [], p => ⟨false, p, [], 0⟩
  | (g, f) :: rest, p =>
    let pr := g p
    if pr.stock < quantity then ⟨false, pr, [], 0⟩
    else
      let pu := f pr
      if pu.version = pr.version then
        ⟨true, ⟨pu.stock - quantity, pr.version + 1⟩,
          [⟨order_id, product_id, quantity⟩], 1⟩
      else
        let r := reserve_stock_go order_id product_id quantity rest pu
        ⟨r.ok, r.product, r.newReservations, r.updateAttempts + 1⟩

/-- InventoryRepository.reserve_stock: the loop runs over the attempt
budget envs (of length MAX_RETRIES in the source). -/
def reserve_stock (order_id product_id : String) (quantity : Int)
    (envs : List ((Product → Product) × (Product → Product))) (p : Product) :
    ReserveOutcome :=
  reserve_stock_go order_id product_id quantity envs p

end Inventory

namespace Concurrent

/-! ### Interleaved reserve_stock callers (claim C2)

A small-step system: a single product row (stock, version) and a list of
threads, each executing InventoryRepository.reserve_stock for its own
quantity.  The two atomic DB accesses of one loop iteration — the
get_product read (followed by the local stock check) and the
version-guarded conditional UPDATE (followed by the local branch on the
row count) — are the two kinds of steps. -/

open Inventory (MAX_RETRIES)

/-- Where one thread is inside reserve_stock. -/
inductive Phase where
  /-- about to execute get_product for iteration `attempt`. -/
  | ready (attempt : Nat)
  /-- has read (obsStock, obsVersion) in iteration `attempt`, about to run
  the conditional UPDATE. -/
  | observed (attempt : Nat) (obsStock : Int) (obsVersion : Nat)
  /-- reserve_stock returned True. -/
  | succeeded
  /-- reserve_stock returned False. -/
  | failed
deriving Repr, DecidableEq

/-- One reserve_stock caller. -/
structure Thread where
  qty : Int
  phase : Phase
deriving Repr, DecidableEq

/-- The shared product row plus all callers. -/
structure SysState where
  stock : Int
  version : Nat
  threads : List Thread
deriving Repr, DecidableEq

/-- Atomic steps of the interleaved execution.  The acting thread is
singled out by splitting the thread list as l1 ++ t :: l2. -/
inductive Step : SysState → SysState → Prop
  /-- get_product then the stock check passes: record the observation. -/
  | read_ok {stk : Int} {ver : Nat} {l1 l2 : List Thread} {q : Int} {a : Nat} :
      ¬ stk < q →
      Step ⟨stk, ver, l1 ++ ⟨q, .ready a⟩ :: l2⟩
        ⟨stk, ver, l1 ++ ⟨q, .observed a stk ver⟩ :: l2⟩
  /-- get_product then the stock check fails: return False. -/
  | read_insufficient {stk : Int} {ver : Nat} {l1 l2 : List Thread} {q : Int} {a : Nat} :
      stk < q →
      Step ⟨stk, ver, l1 ++ ⟨q, .ready a⟩ :: l2⟩
        ⟨stk, ver, l1 ++ ⟨q, .failed⟩ :: l2⟩
  /-- the conditional UPDATE fires: the observed version still equals the
  current version, so stock decreases by q and the version is bumped. -/
  | update_ok {stk : Int} {ver : Nat} {l1 l2 : List Thread} {q os : Int} {a : Nat} :
      Step ⟨stk, ver, l1 ++ ⟨q, .observed a os ver⟩ :: l2⟩
        ⟨stk - q, ver + 1, l1 ++ ⟨q, .succeeded⟩ :: l2⟩
  /-- the conditional UPDATE touches zero rows (version moved) and the
  attempt budget is not exhausted: continue with the next iteration. -/
  | update_conflict_retry {stk : Int} {ver : Nat} {l1 l2 : List Thread}
      {q os : Int} {a ov : Nat} :
      ov ≠ ver → a + 1 < MAX_RETRIES →
      Step ⟨stk, ver, l1 ++ ⟨q, .observed a os ov⟩ :: l2⟩
        ⟨stk, ver, l1 ++ ⟨q, .ready (a + 1)⟩ :: l2⟩
  /-- the conditional UPDATE touches zero rows on the final attempt:
  return False. -/
  | update_conflict_fail {stk : Int} {ver : Nat} {l1 l2 : List Thread}
      {q os : Int} {a ov : Nat} :
      ov ≠ ver → ¬ a + 1 < MAX_RETRIES →
      Step ⟨stk, ver, l1 ++ ⟨q, .observed a os ov⟩ :: l2⟩
        ⟨stk, ver, l1 ++ ⟨q, .failed⟩ :: l2⟩

/-- Reflexive-transitive closure of the interleaving steps. -/
def Reachable : SysState → SysState → Prop := Relation.ReflTransGen Step

/-- Initial state: stock S, version 0, one thread per requested quantity,
all about to start attempt 0. -/
def init (S : Int) (qtys : List Int) : SysState :=
  ⟨S, 0, qtys.map fun q => ⟨q, .ready 0⟩⟩

/-- Sum of the quantities of the reserve_stock calls that returned True. -/
def successSum (s : SysState) : Int :=
  (s.threads.map fun t => if t.phase = .succeeded then t.qty else 0).sum

/-- The inductive invariant of the interleaved system: the initial stock
S splits into the current stock plus the successfully reserved
quantities, stock is never negative, and every pending observation was
taken at a version at most the current one — with the key
optimistic-concurrency property that an observation whose version still
matches saw exactly the current stock (every mutation bumps the
version), and its thread passed the stock check q ≤ os. -/
def Inv (S : Int) (s : SysState) : Prop :=
  s.stock + successSum s = S ∧ 0 ≤ s.stock ∧
  ∀ t ∈ s.threads, ∀ a os ov, t.phase = .observed a os ov →
    ov ≤ s.version ∧ (ov = s.version → os = s.stock) ∧ t.qty ≤ os

end Concurrent

namespace OrderSvc

/-! ### services/order-service: models.py, repository.py, saga_handler.py,
and the event dispatch of main.py.

The uuid4-based order_id generator and the uuid outbox primary key are
modelled by counters in the database state (the code never branches on
their values, only on equality with stored ones); wall-clock timestamp
columns are not modelled. -/

/-- One orders row (models.py Order). -/
structure Order where
  order_id : String
  user_id : String
  items : List Item
  total_amount : Int
  status : String
deriving Repr, DecidableEq

/-- The JSON document a saga handler stages in the outbox (the dict
literals in saga_handler.py): fields absent from a given dict are none.
The timestamp key is not modelled. -/
structure OutboxPayload where
  event_id : String
  event_type : String
  correlation_id : String
  order_id : String
  user_id : String
  items : Option (List Item)
  total_amount : Option Int
  reason : Option String
  cancellation_source : Option String
deriving Repr, DecidableEq

/-- One outbox_events row (models.py OutboxEvent); published is the
one-character "Y"/"N" column. -/
structure OutboxEvent where
  id : Nat
  order_id : String
  event_type : String
  event_data : OutboxPayload
  published : String
deriving Repr, DecidableEq

/-- One processed_events row (models.py ProcessedEvent). -/
structure ProcessedEvent where
  event_id : String
  event_type : String
deriving Repr, DecidableEq

/-- The order-service database plus the id generators. -/
structure OrderDB where
  orders : List Order
  outbox : List OutboxEvent
  processed : List ProcessedEvent
  nextOutboxId : Nat
  nextOrderNo : Nat
deriving Repr, DecidableEq

/-- OrderRepository.create_order: fresh order_id, status PENDING. -/
def create_order (db : OrderDB) (user_id : String) (items : List Item)
    (total_amount : Int) : Order × OrderDB :=
  let order : Order :=
    ⟨"ORD-" ++ toString db.nextOrderNo, user_id, items, total_amount, "PENDING"⟩
  (order, ⟨db.orders ++ [order], db.outbox, db.processed,
    db.nextOutboxId, db.nextOrderNo + 1⟩)

/-- OrderRepository.get_order: first row with this order_id. -/
def get_order (db : OrderDB) (order_id : String) : Option Order :=
  db.orders.find? fun o => o.order_id == order_id

/-- Set the status of the first row matching order_id (the .first() row
that update_order_status mutates). -/
def set_status (order_id status : String) : List Order → List Order
  | [] => []
  | o :: os =>
    if o.order_id == order_id then
      ⟨o.order_id, o.user_id, o.items, o.total_amount, status⟩ :: os
    else o :: set_status order_id status os

/-- OrderRepository.update_order_status. -/
def update_order_status (db : OrderDB) (order_id status : String) : OrderDB :=
  ⟨set_status order_id status db.orders, db.outbox, db.processed,
    db.nextOutboxId, db.nextOrderNo⟩

/-- OrderRepository.add_outbox_event: append a row with published = "N". -/
def add_outbox_event (db : OrderDB) (order_id event_type : String)
    (event_data : OutboxPayload) : OrderDB :=
  ⟨db.orders,
    db.outbox ++ [⟨db.nextOutboxId, order_id, event_type, event_data, "N"⟩],
    db.processed, db.nextOutboxId + 1, db.nextOrderNo⟩

/-- OrderRepository.get_unpublished_events. -/
def get_unpublished_events (db : OrderDB) : List OutboxEvent :=
  db.outbox.filter fun e => e.published == "N"

/-- Mark the first row with this id as published (the .first() row that
mark_event_published mutates). -/
def mark_published (id : Nat) : List OutboxEvent → List OutboxEvent
  | [] => []
  | e :: es =>
    if e.id == id then ⟨e.id, e.order_id, e.event_type, e.event_data, "Y"⟩ :: es
    else e :: mark_published id es

/-- OrderRepository.mark_event_published. -/
def mark_event_published (db : OrderDB) (id : Nat) : OrderDB :=
  ⟨db.orders, mark_published id db.outbox, db.processed,
    db.nextOutboxId, db.nextOrderNo⟩

/-- OrderRepository.is_event_processed. -/
def is_event_processed (db : OrderDB) (event_id : String) : Bool :=
  db.processed.any fun pe => pe.event_id == event_id

/-- OrderRepository.mark_event_processed. -/
def mark_event_processed (db : OrderDB) (event_id event_type : String) : OrderDB :=
  ⟨db.orders, db.outbox, db.processed ++ [⟨event_id, event_type⟩],
    db.nextOutboxId, db.nextOrderNo⟩

/-- SagaHandler.handle_cart_checkout_initiated. -/
def handle_cart_checkout_initiated (e : Event) (db : OrderDB) : OrderDB :=
  if is_event_processed db e.event_id then db
  else
    let od := create_order db e.user_id e.items e.total_amount
    let payload : OutboxPayload :=
      ⟨e.event_id, "order.created", e.correlation_id, od.1.order_id, e.user_id,
        some e.items, some e.total_amount, none, none⟩
    let db2 := add_outbox_event od.2 od.1.order_id "order.created" payload
    mark_event_processed db2 e.event_id e.event_type

/-- SagaHandler.handle_payment_processed. -/
def handle_payment_processed (e : Event) (db : OrderDB) : OrderDB :=
  if is_event_processed db e.event_id then db
  else
    match get_order db e.order_id with
    | none => db
    | some _ =>
      let db1 := update_order_status db e.order_id "PAID"
      let payload : OutboxPayload :=
        ⟨e.event_id, "order.confirmed", e.correlation_id, e.order_id, e.user_id,
          none, none, none, none⟩
      let db2 := add_outbox_event db1 e.order_id "order.confirmed" payload
      mark_event_processed db2 e.event_id e.event_type

/-- SagaHandler.handle_payment_failed. -/
def handle_payment_failed (e : Event) (db : OrderDB) : OrderDB :=
  if is_event_processed db e.event_id then db
  else
    match get_order db e.order_id with
    | none => db
    | some _ =>
      let db1 := update_order_status db e.order_id "CANCELLED"
      let payload : OutboxPayload :=
        ⟨e.event_id, "order.cancelled", e.correlation_id, e.order_id, e.user_id,
          none, none, some (e.reason.getD "Payment processing failed"),
          some "payment_failed"⟩
      let db2 := add_outbox_event db1 e.order_id "order.cancelled" payload
      mark_event_processed db2 e.event_id e.event_type

/-- SagaHandler.handle_inventory_reserved. -/
def handle_inventory_reserved (e : Event) (db : OrderDB) : OrderDB :=
  if is_event_processed db e.event_id then db
  else
    match get_order db e.order_id with
    | none => db
    | some order =>
      let db1 := update_order_status db e.order_id "RESERVATION_CONFIRMED"
      let payload : OutboxPayload :=
        ⟨e.event_id, "order.reservation_confirmed", e.correlation_id, e.order_id,
          order.user_id, none, some order.total_amount, none, none⟩
      let db2 :=
        add_outbox_event db1 order.order_id "order.reservation_confirmed" payload
      mark_event_processed db2 e.event_id e.event_type

/-- SagaHandler.handle_inventory_depleted. -/
def handle_inventory_depleted (e : Event) (db : OrderDB) : OrderDB :=
  if is_event_processed db e.event_id then db
  else
    match get_order db e.order_id with
    | none => db
    | some order =>
      let db1 := update_order_status db e.order_id "CANCELLED"
      let payload : OutboxPayload :=
        ⟨e.event_id, "order.cancelled", e.correlation_id, e.order_id,
          order.user_id, none, none,
          some (e.reason.getD
            ("Out of stock or insufficient stock: " ++ e.product_id)),
          some "inventory_depleted"⟩
      let db2 := add_outbox_event db1 order.order_id "order.cancelled" payload
      mark_event_processed db2 e.event_id e.event_type

/-- SagaHandler.handle_order_fulfilled (stages no outbox event). -/
def handle_order_fulfilled (e : Event) (db : OrderDB) : OrderDB :=
  if is_event_processed db e.event_id then db
  else
    match get_order db e.order_id with
    | none => db
    | some _ =>
      let db1 := update_order_status db e.order_id "FULFILLED"
      mark_event_processed db1 e.event_id e.event_type

/-- The string-keyed dispatch of handle_event in
services/order-service/main.py (order_event_consumer). -/
def handle_event (e : Event) (db : OrderDB) : OrderDB :=
  if e.event_type == "cart.checkout_initiated" then
    handle_cart_checkout_initiated e db
  else if e.event_type == "inventory.reserved" then handle_inventory_reserved e db
  else if e.event_type == "inventory.depleted" then handle_inventory_depleted e db
  else if e.event_type == "payment.processed" then handle_payment_processed e db
  else if e.event_type == "payment.failed" then handle_payment_failed e db
  else if e.event_type == "order.fulfilled" then handle_order_fulfilled e db
  else db

/-- Deliver a sequence of events to the order service, in order. -/
def deliver (events : List Event) (db : OrderDB) : OrderDB :=
  events.foldl (fun d e => handle_event e d) db

/-- The five status strings the order service ever writes. -/
def STATUSES : List String :=
  ["PENDING", "RESERVATION_CONFIRMED", "PAID", "CANCELLED", "FULFILLED"]

/-- Every orders row carries one of the five statuses. -/
def AllValid (db : OrderDB) : Prop := ∀ o ∈ db.orders, o.status ∈ STATUSES

/-- The order-service database together with the event bus the relay
publishes to. -/
structure RelayState where
  db : OrderDB
  bus : List (String × OutboxPayload)
deriving Repr, DecidableEq

/-- One pass of OutboxPublisher._publish_loop: read all unpublished rows,
then for each row publish to the bus and mark it published; a publish
that raises (pubFail) is caught by the per-event except block and leaves
the row untouched.  The row is marked only after producer.publish
returned, i.e. after the synchronous flush acknowledged the send. -/
def publish_round (pubFail : Nat → Bool) (s : RelayState) : RelayState :=
  (get_unpublished_events s.db).foldl
    (fun st ev =>
      if pubFail ev.id then st
      else ⟨mark_event_published st.db ev.id,
            st.bus ++ [(ev.event_type, ev.event_data)]⟩)
    s

end OrderSvc

namespace InvSvc

/-! ### services/inventory-service/main.py handle_event, over the
repository of services/inventory-service/repository.py.

This is the sequential (single consumer thread) semantics: with no
concurrent writer between the get_product read and the version-guarded
UPDATE, the guard always matches on the first attempt, so the
reserve_stock retry loop reduces to one read-check-update; the
interleaved semantics of the same function is ECom.Inventory and
ECom.Concurrent.  The uuid primary key of stock_reservations is modelled
by a counter. -/

/-- One products row (product_id, stock, version). -/
structure ProductRow where
  product_id : String
  stock : Int
  version : Nat
deriving Repr, DecidableEq

/-- One stock_reservations row; rid models the uuid primary key. -/
structure ReservationRow where
  rid : Nat
  order_id : String
  product_id : String
  quantity : Int
deriving Repr, DecidableEq

/-- The inventory-service database. -/
structure InvState where
  products : List ProductRow
  reservations : List ReservationRow
  nextRid : Nat
deriving Repr, DecidableEq

/-- InventoryRepository.get_product. -/
def get_product (db : InvState) (pid : String) : Option ProductRow :=
  db.products.find? fun p => p.product_id == pid

/-- The successful conditional UPDATE of reserve_stock on the first row
matching product_id: stock -= qty, version += 1. -/
def sub_stock (pid : String) (qty : Int) : List ProductRow → List ProductRow
  | [] => []
  | p :: ps =>
    if p.product_id == pid then ⟨p.product_id, p.stock - qty, p.version + 1⟩ :: ps
    else p :: sub_stock pid qty ps

/-- InventoryRepository.reserve_stock, sequential semantics: missing
product or insufficient stock return False and change nothing; otherwise
the guarded UPDATE fires, one reservation row is appended, True. -/
def reserve_stock (db : InvState) (oid pid : String) (qty : Int) :
    Bool × InvState :=
  match get_product db pid with
  | none => (false, db)
  | some p =>
    if p.stock < qty then (false, db)
    else
      (true, ⟨sub_stock pid qty db.products,
        db.reservations ++ [⟨db.nextRid, oid, pid, qty⟩], db.nextRid + 1⟩)

/-- The mutation of release_stock on the first row matching product_id:
stock += qty, version += 1. -/
def add_stock (pid : String) (qty : Int) : List ProductRow → List ProductRow
  | [] => []
  | p :: ps =>
    if p.product_id == pid then ⟨p.product_id, p.stock + qty, p.version + 1⟩ :: ps
    else p :: add_stock pid qty ps

/-- InventoryRepository.release_stock: increments stock and bumps the
version of the product; it does not itself touch stock_reservations. -/
def release_stock (db : InvState) (pid : String) (qty : Int) : Bool × InvState :=
  match get_product db pid with
  | none => (false, db)
  | some _ => (true, ⟨add_stock pid qty db.products, db.reservations, db.nextRid⟩)

/-- InventoryRepository.get_stock_level. -/
def get_stock_level (db : InvState) (pid : String) : Option Int :=
  (get_product db pid).map fun p => p.stock

/-- The LOW_STOCK_THRESHOLD constant of the consumer closure. -/
def LOW_STOCK_THRESHOLD : Int := 10

/-- Events the inventory handler publishes to the bus. -/
inductive InvMsg where
  | reserved (order_id product_id : String) (quantity : Int)
  | low (product_id : String) (current_stock threshold : Int)
  | depleted (order_id product_id : String)
deriving Repr, DecidableEq

/-- The loop body of the order.created branch of handle_event: reserve
for one item; on success publish inventory.reserved (plus inventory.low
when the remaining stock is below the threshold), on failure publish
inventory.depleted; either way move on to the next item. -/
def reserve_item (oid : String) (dm : InvState × List InvMsg) (item : Item) :
    InvState × List InvMsg :=
  let db1p := reserve_stock dm.1 oid item.product_id item.quantity
  if db1p.1 then
    match get_stock_level db1p.2 item.product_id with
    | some cs =>
      if cs < LOW_STOCK_THRESHOLD then
        (db1p.2, dm.2 ++ [.reserved oid item.product_id item.quantity,
          .low item.product_id cs LOW_STOCK_THRESHOLD])
      else (db1p.2, dm.2 ++ [.reserved oid item.product_id item.quantity])
    | none => (db1p.2, dm.2 ++ [.reserved oid item.product_id item.quantity])
  else (db1p.2, dm.2 ++ [.depleted oid item.product_id])

/-- The order.created branch of handle_event: reserve each order item in
list order. -/
def handle_order_created (e : Event) (db : InvState) : InvState × List InvMsg :=
  e.items.foldl (reserve_item e.order_id) (db, [])

/-- db.delete(reservation): remove the row with this primary key. -/
def delete_reservation (rid : Nat) (db : InvState) : InvState :=
  ⟨db.products, db.reservations.filter fun r => r.rid ≠ rid, db.nextRid⟩

/-- The loop body of the payment_failed compensation: release the stock
of one reservation row, then delete the row. -/
def release_reservation (db : InvState) (r : ReservationRow) : InvState :=
  delete_reservation r.rid (release_stock db r.product_id r.quantity).2

/-- The order.cancelled branch of handle_event: when cancellation_source
is payment_failed, release every reservation of the order and delete its
row; otherwise do nothing.  The Nat is how many release_stock calls the
branch makes. -/
def handle_order_cancelled (e : Event) (db : InvState) : InvState × Nat :=
  if e.cancellation_source == some "payment_failed" then
    let rs := db.reservations.filter fun r => r.order_id == e.order_id
    (rs.foldl release_reservation db, rs.length)
  else (db, 0)

end InvSvc

namespace Consumer

/-! ### shared/kafka_client.py BaseKafkaConsumer.consume: the per-message
retry / dead-letter logic.  handlerOk a tells whether handler_fn returns
normally on the attempt with index a (false = it raises). -/

/-- The max_retries constant of consume. -/
def max_retries : Nat := 3

/-- The retry_delays list of consume (exponential backoff). -/
def retry_delays : List Nat := [1, 2, 4]

/-- What processing one polled message did: how often handler_fn was
invoked, which sleeps happened between attempts, what was published to
dlq.events, and the processed_events set afterwards. -/
structure MsgOutcome where
  invocations : Nat
  sleeps : List Nat
  dlq : List Event
  processed : List String
deriving Repr, DecidableEq

/-- The `for attempt in range(max_retries)` loop, on the remaining part
of range(max_retries): invoke the handler; on success record the
event_id and stop; on failure sleep retry_delays[attempt] and retry
while attempts remain, else publish the event object itself to
dlq.events and record the event_id. -/
def attempt_loop (handlerOk : Nat → Bool) (e : Event) (processed : List String) :
    List Nat → MsgOutcome
  | [] => ⟨0, [], [], processed⟩
  | a :: rest =>
    if handlerOk a then ⟨1, [], [], processed ++ [e.event_id]⟩
    else if rest.isEmpty then ⟨1, [], [e], processed ++ [e.event_id]⟩
    else
      let r := attempt_loop handlerOk e processed rest
      ⟨r.invocations + 1, retry_delays.getD a 0 :: r.sleeps, r.dlq, r.processed⟩

/-- Processing of one decoded message in consume: skip it outright when
its event_id is already in the in-memory processed set, otherwise run
the attempt loop. -/
def process_message (handlerOk : Nat → Bool) (processed : List String)
    (e : Event) : MsgOutcome :=
  if processed.contains e.event_id then ⟨0, [], [], processed⟩
  else attempt_loop handlerOk e processed (List.range max_retries)

end Consumer

/-- A concrete inbound event used to exercise the definitions on closed
inputs. -/
def sampleEvent : Event :=
  ⟨"EV-1", "order.created", "CORR-1", "ORD-1", "U-1", [⟨"P1", 1⟩], 30, "P1",
    none, none⟩

/-- A concrete orders row used to exercise the definitions. -/
def sampleOrder : OrderSvc.Order := ⟨"ORD-1", "U-1", [⟨"P1", 1⟩], 30, "PENDING"⟩

/-- A concrete order-service database holding sampleOrder. -/
def sampleDB : OrderSvc.OrderDB := ⟨[sampleOrder], [], [], 0, 2⟩

/-- A concrete order-service database whose only order is already
CANCELLED. -/
def cancelledDB : OrderSvc.OrderDB :=
  ⟨[⟨"ORD-1", "U-1", [⟨"P1", 1⟩], 30, "CANCELLED"⟩], [], [], 0, 2⟩

/-- A concrete inventory database: one unit of P1, none of P2. -/
def sampleInvDB : InvSvc.InvState :=
  ⟨[⟨"P1", 1, 0⟩, ⟨"P2", 0, 0⟩], [], 0⟩

/-- A concrete inventory database holding one reservation of 2 units of
P1 for ORD-1. -/
def reservedInvDB : InvSvc.InvState :=
  ⟨[⟨"P1", 5, 3⟩], [⟨0, "ORD-1", "P1", 2⟩], 1⟩

/-- A concrete order.cancelled event with
cancellation_source=payment_failed. -/
def samplePFCancelEvent : Event :=
  ⟨"EV-3", "order.cancelled", "CORR-1", "ORD-1", "U-1", [], 0, "P1",
    some "Payment processing failed", some "payment_failed"⟩

/-- A concrete staged outbox payload. -/
def samplePayload : OrderSvc.OutboxPayload :=
  ⟨"EV-1", "order.created", "CORR-1", "ORD-1", "U-1", none, none, none, none⟩

/-- A concrete relay state with two unpublished outbox rows. -/
def sampleRelay : OrderSvc.RelayState :=
  ⟨⟨[], [⟨0, "ORD-1", "order.created", samplePayload, "N"⟩,
    ⟨1, "ORD-2", "order.created", samplePayload, "N"⟩], [], 2, 0⟩, []⟩

end ECom

/-! ## Theorems -/

open ECom

namespace ECom.Inventory

/-- Unfolding: one loop iteration of reserve_stock_go. -/
theorem reserve_stock_go_cons (oid pid : String) (qty : Int)
    (g f : Product → Product) (rest : List ((Product → Product) × (Product → Product)))
    (p : Product) :
    reserve_stock_go oid pid qty ((g, f) :: rest) p =
      (if (g p).stock < qty then ⟨false, g p, [], 0⟩
       else if (f (g p)).version = (g p).version then
         ⟨true, ⟨(f (g p)).stock - qty, (g p).version + 1⟩, [⟨oid, pid, qty⟩], 1⟩
       else
         let r := reserve_stock_go oid pid qty rest (f (g p))
         ⟨r.ok, r.product, r.newReservations, r.updateAttempts + 1⟩) := by
  rfl

/-- A successful reserve_stock_go appended exactly one reservation row,
ran at least one conditional UPDATE, and its final product row is the
update-time row with stock decremented by qty and version bumped by 1. -/
theorem reserve_stock_go_ok (oid pid : String) (qty : Int) :
    ∀ (envs : List ((Product → Product) × (Product → Product))) (p : Product),
      (reserve_stock_go oid pid qty envs p).ok = true →
      (reserve_stock_go oid pid qty envs p).newReservations = [⟨oid, pid, qty⟩] ∧
      1 ≤ (reserve_stock_go oid pid qty envs p).updateAttempts ∧
      ∃ q : Product,
        (reserve_stock_go oid pid qty envs p).product = ⟨q.stock - qty, q.version + 1⟩
  | [], p => by intro h; simp [reserve_stock_go] at h
  | (g, f) :: rest, p => by
    intro h
    rw [reserve_stock_go_cons] at h ⊢
    by_cases h1 : (g p).stock < qty
    · simp [h1] at h
    · by_cases h2 : (f (g p)).version = (g p).version
      · refine ⟨?_, ?_, ⟨⟨(f (g p)).stock, (g p).version⟩, ?_⟩⟩ <;> simp [h1, h2]
      · have ih := reserve_stock_go_ok oid pid qty rest (f (g p))
        simp only [h1, if_false, h2, if_false] at h ⊢
        obtain ⟨ih1, ih2, ih3⟩ := ih h
        exact ⟨ih1, Nat.le_succ_of_le ih2, ih3⟩

/-- reserve_stock_go runs at most one conditional UPDATE per attempt. -/
theorem reserve_stock_go_attempts (oid pid : String) (qty : Int) :
    ∀ (envs : List ((Product → Product) × (Product → Product))) (p : Product),
      (reserve_stock_go oid pid qty envs p).updateAttempts ≤ envs.length
  | [], p => by simp [reserve_stock_go]
  | (g, f) :: rest, p => by
    rw [reserve_stock_go_cons]
    by_cases h1 : (g p).stock < qty
    · simp [h1]
    · by_cases h2 : (f (g p)).version = (g p).version
      · simp [h1, h2]
      · have ih := reserve_stock_go_attempts oid pid qty rest (f (g p))
        simp only [h1, if_false, h2, if_false, List.length_cons]
        exact Nat.succ_le_succ ih

/-- When every attempt loses the race (the version moved between the
read and the UPDATE), reserve_stock_go returns False — the same outcome
as an insufficient-stock rejection — and inserts no reservation. -/
theorem reserve_stock_go_conflict (oid pid : String) (qty : Int) :
    ∀ (envs : List ((Product → Product) × (Product → Product))) (p : Product),
      (∀ gf ∈ envs, ∀ q : Product, (gf.2 q).version ≠ q.version) →
      (reserve_stock_go oid pid qty envs p).ok = false ∧
      (reserve_stock_go oid pid qty envs p).newReservations = []
  | [], p => by intro _; simp [reserve_stock_go]
  | (g, f) :: rest, p => by
    intro hconf
    rw [reserve_stock_go_cons]
    by_cases h1 : (g p).stock < qty
    · simp [h1]
    · have h2 : (f (g p)).version ≠ (g p).version :=
        hconf (g, f) (List.mem_cons_self _ _) (g p)
      have ih := reserve_stock_go_conflict oid pid qty rest (f (g p))
        (fun gf hgf => hconf gf (List.mem_cons_of_mem _ hgf))
      simp only [h1, if_false, h2, if_false]
      exact ih

end ECom.Inventory

/-- C7: reserve_stock fails immediately, without attempting the
conditional UPDATE and without touching the row, when the observed stock
is below the requested quantity; a successful conditional UPDATE
decrements stock by exactly qty, bumps the version by exactly 1, inserts
exactly one stock_reservations row and returns success; each of the at
most MAX_RETRIES = 3 attempts re-reads and runs at most one conditional
UPDATE; and losing the race on every attempt returns the same failure
outcome (False, no reservation) as insufficient stock. -/
theorem C7_reserve_stock_correct (oid pid : String) (qty : Int)
    (envs : List ((Inventory.Product → Inventory.Product) ×
      (Inventory.Product → Inventory.Product)))
    (p : Inventory.Product) :
    (∀ g f rest, envs = (g, f) :: rest → (g p).stock < qty →
      Inventory.reserve_stock oid pid qty envs p = ⟨false, g p, [], 0⟩)
    ∧ ((Inventory.reserve_stock oid pid qty envs p).ok = true →
        (Inventory.reserve_stock oid pid qty envs p).newReservations =
          [⟨oid, pid, qty⟩] ∧
        1 ≤ (Inventory.reserve_stock oid pid qty envs p).updateAttempts ∧
        ∃ q : Inventory.Product,
          (Inventory.reserve_stock oid pid qty envs p).product =
            ⟨q.stock - qty, q.version + 1⟩)
    ∧ (Inventory.reserve_stock oid pid qty envs p).updateAttempts ≤ envs.length
    ∧ (envs.length = Inventory.MAX_RETRIES →
        (Inventory.reserve_stock oid pid qty envs p).updateAttempts ≤
          Inventory.MAX_RETRIES)
    ∧ ((∀ gf ∈ envs, ∀ q : Inventory.Product, (gf.2 q).version ≠ q.version) →
        (Inventory.reserve_stock oid pid qty envs p).ok = false ∧
        (Inventory.reserve_stock oid pid qty envs p).newReservations = []) := by
  refine ⟨?_, Inventory.reserve_stock_go_ok oid pid qty envs p,
    Inventory.reserve_stock_go_attempts oid pid qty envs p, ?_,
    Inventory.reserve_stock_go_conflict oid pid qty envs p⟩
  · intro g f rest hvs h1
    subst hvs
    rw [Inventory.reserve_stock, Inventory.reserve_stock_go_cons]
    simp [h1]
  · intro hlen
    calc (Inventory.reserve_stock oid pid qty envs p).updateAttempts
        ≤ envs.length := Inventory.reserve_stock_go_attempts oid pid qty envs p
      _ = Inventory.MAX_RETRIES := hlen

/-- Witness for C7 at concrete inputs: a product with stock 5, version 0,
quantity 2, with an interference schedule that bumps the version before
every conditional UPDATE, exhausts the three attempts and returns the
insufficient-stock outcome; the insufficient-stock branch itself is
exercised with stock 1. -/
theorem C7_reserve_stock_correct_witness :
    (Inventory.reserve_stock "O1" "P1" 2
        [(id, fun p => ⟨p.stock, p.version + 1⟩),
         (id, fun p => ⟨p.stock, p.version + 1⟩),
         (id, fun p => ⟨p.stock, p.version + 1⟩)] ⟨5, 0⟩).ok = false ∧
    Inventory.reserve_stock "O1" "P1" 2 [(id, id), (id, id), (id, id)] ⟨1, 0⟩ =
      ⟨false, ⟨1, 0⟩, [], 0⟩ := by
  constructor
  · exact ((C7_reserve_stock_correct "O1" "P1" 2
      [(id, fun p => ⟨p.stock, p.version + 1⟩),
       (id, fun p => ⟨p.stock, p.version + 1⟩),
       (id, fun p => ⟨p.stock, p.version + 1⟩)] ⟨5, 0⟩).2.2.2.2
      (by
        intro gf hgf q
        simp only [List.mem_cons, List.not_mem_nil, or_false] at hgf
        rcases hgf with h | h | h <;> subst h <;> simp)).1
  · exact (C7_reserve_stock_correct "O1" "P1" 2 [(id, id), (id, id), (id, id)]
      ⟨1, 0⟩).1 id id [(id, id), (id, id)] rfl (by norm_num)

namespace ECom.Consumer

/-- Evaluation of the attempt loop when the handler raises on every
invocation: three invocations, sleeps of 1s and 2s between them, one
dlq.events publish of the original envelope, event_id recorded. -/
theorem attempt_loop_all_fail (handlerOk : Nat → Bool)
    (hfail : ∀ a, handlerOk a = false) (e : Event) (processed : List String) :
    attempt_loop handlerOk e processed (List.range max_retries) =
      ⟨3, [1, 2], [e], processed ++ [e.event_id]⟩ := by
  have hr : List.range max_retries = [0, 1, 2] := by rfl
  rw [hr]
  simp [attempt_loop, hfail 0, hfail 1, hfail 2, retry_delays]

end ECom.Consumer

/-- C5 counterexample: for a message whose handler raises on every
invocation, the consumer sleeps 1s and then 2s between its three
attempts — not 1s, 2s and 4s as the claim states (three attempts only
have two gaps; the 4s entry of retry_delays is never used because the
third failure goes straight to the DLQ). -/
theorem C5_counterexample_delays :
    (Consumer.process_message (fun _ => false) [] ECom.sampleEvent).sleeps = [1, 2] ∧
    (Consumer.process_message (fun _ => false) [] ECom.sampleEvent).sleeps ≠ [1, 2, 4] := by
  constructor <;> decide

/-- C5 (amended): for a message whose handler raises on every invocation
and whose event_id is not yet in the processed set, the consumer invokes
the handler exactly 3 times with backoff sleeps of 1s and then 2s
between the attempts (the configured 4s delay is never slept), publishes
exactly one event to dlq.events, records the event_id as processed, and
a redelivery of the same event_id invokes the handler zero further
times. -/
theorem C5_retry_then_dlq (handlerOk : Nat → Bool)
    (hfail : ∀ a, handlerOk a = false) (e : Event) (processed : List String)
    (hfresh : processed.contains e.event_id = false) :
    (Consumer.process_message handlerOk processed e).invocations = 3 ∧
    (Consumer.process_message handlerOk processed e).sleeps = [1, 2] ∧
    (Consumer.process_message handlerOk processed e).dlq = [e] ∧
    (Consumer.process_message handlerOk processed e).processed =
      processed ++ [e.event_id] ∧
    Consumer.process_message handlerOk
        (Consumer.process_message handlerOk processed e).processed e =
      ⟨0, [], [], processed ++ [e.event_id]⟩ := by
  have h1 : Consumer.process_message handlerOk processed e =
      ⟨3, [1, 2], [e], processed ++ [e.event_id]⟩ := by
    rw [Consumer.process_message, if_neg (by rw [hfresh]; simp)]
    exact Consumer.attempt_loop_all_fail handlerOk hfail e processed
  refine ⟨by rw [h1], by rw [h1], by rw [h1], by rw [h1], ?_⟩
  rw [h1, Consumer.process_message, if_pos (by simp)]

/-- Witness for C5 at a concrete input: the always-raising handler on a
fresh event. -/
theorem C5_retry_then_dlq_witness :
    (Consumer.process_message (fun _ => false) [] ECom.sampleEvent).invocations = 3 ∧
    Consumer.process_message (fun _ => false)
        (Consumer.process_message (fun _ => false) [] ECom.sampleEvent).processed
        ECom.sampleEvent =
      ⟨0, [], [], [] ++ [ECom.sampleEvent.event_id]⟩ := by
  have h := C5_retry_then_dlq (fun _ => false) (fun _ => rfl) ECom.sampleEvent []
    (by decide)
  exact ⟨h.1, h.2.2.2.2⟩

/-- C6: when the retries are exhausted, the event published to
dlq.events is the bare original envelope — consume publishes the event
object itself, with no original_topic, original_event_type, error_reason
or retry_count fields attached (contradicting the DLQ Event Contents
section of the kafka_client.py docstring). -/
theorem C6_dlq_payload_is_bare_envelope :
    (Consumer.process_message (fun _ => false) [] ECom.sampleEvent).dlq =
      [ECom.sampleEvent] := by
  decide

/-- C10: every saga handler that stages an outbound event writes the
inbound event_id into the staged payload rather than a fresh identifier:
cart.checkout_initiated stages order.created, inventory.reserved stages
order.reservation_confirmed, inventory.depleted stages order.cancelled,
payment.processed stages order.confirmed and payment.failed stages
order.cancelled, each carrying the triggering event's event_id. -/
theorem C10_staged_event_id_reused (e : Event) (db : OrderSvc.OrderDB)
    (hproc : OrderSvc.is_event_processed db e.event_id = false) :
    (∃ row, (OrderSvc.handle_cart_checkout_initiated e db).outbox =
        db.outbox ++ [row] ∧ row.event_type = "order.created" ∧
        row.event_data.event_id = e.event_id)
    ∧ (∀ o, OrderSvc.get_order db e.order_id = some o →
        ∃ row, (OrderSvc.handle_inventory_reserved e db).outbox =
          db.outbox ++ [row] ∧ row.event_type = "order.reservation_confirmed" ∧
          row.event_data.event_id = e.event_id)
    ∧ (∀ o, OrderSvc.get_order db e.order_id = some o →
        ∃ row, (OrderSvc.handle_inventory_depleted e db).outbox =
          db.outbox ++ [row] ∧ row.event_type = "order.cancelled" ∧
          row.event_data.event_id = e.event_id)
    ∧ (∀ o, OrderSvc.get_order db e.order_id = some o →
        ∃ row, (OrderSvc.handle_payment_processed e db).outbox =
          db.outbox ++ [row] ∧ row.event_type = "order.confirmed" ∧
          row.event_data.event_id = e.event_id)
    ∧ (∀ o, OrderSvc.get_order db e.order_id = some o →
        ∃ row, (OrderSvc.handle_payment_failed e db).outbox =
          db.outbox ++ [row] ∧ row.event_type = "order.cancelled" ∧
          row.event_data.event_id = e.event_id) := by
  refine ⟨?_, ?_, ?_, ?_, ?_⟩
  · refine ⟨⟨db.nextOutboxId, "ORD-" ++ toString db.nextOrderNo, "order.created",
      ⟨e.event_id, "order.created", e.correlation_id,
        "ORD-" ++ toString db.nextOrderNo, e.user_id, some e.items,
        some e.total_amount, none, none⟩, "N"⟩, ?_, rfl, rfl⟩
    simp [OrderSvc.handle_cart_checkout_initiated, hproc, OrderSvc.create_order,
      OrderSvc.add_outbox_event, OrderSvc.mark_event_processed]
  · intro o ho
    refine ⟨⟨db.nextOutboxId, o.order_id, "order.reservation_confirmed",
      ⟨e.event_id, "order.reservation_confirmed", e.correlation_id, e.order_id,
        o.user_id, none, some o.total_amount, none, none⟩, "N"⟩, ?_, rfl, rfl⟩
    simp [OrderSvc.handle_inventory_reserved, hproc, ho,
      OrderSvc.update_order_status, OrderSvc.add_outbox_event,
      OrderSvc.mark_event_processed]
  · intro o ho
    refine ⟨⟨db.nextOutboxId, o.order_id, "order.cancelled",
      ⟨e.event_id, "order.cancelled", e.correlation_id, e.order_id, o.user_id,
        none, none,
        some (e.reason.getD
          ("Out of stock or insufficient stock: " ++ e.product_id)),
        some "inventory_depleted"⟩, "N"⟩, ?_, rfl, rfl⟩
    simp [OrderSvc.handle_inventory_depleted, hproc, ho,
      OrderSvc.update_order_status, OrderSvc.add_outbox_event,
      OrderSvc.mark_event_processed]
  · intro o ho
    refine ⟨⟨db.nextOutboxId, e.order_id, "order.confirmed",
      ⟨e.event_id, "order.confirmed", e.correlation_id, e.order_id, e.user_id,
        none, none, none, none⟩, "N"⟩, ?_, rfl, rfl⟩
    simp [OrderSvc.handle_payment_processed, hproc, ho,
      OrderSvc.update_order_status, OrderSvc.add_outbox_event,
      OrderSvc.mark_event_processed]
  · intro o ho
    refine ⟨⟨db.nextOutboxId, e.order_id, "order.cancelled",
      ⟨e.event_id, "order.cancelled", e.correlation_id, e.order_id, e.user_id,
        none, none, some (e.reason.getD "Payment processing failed"),
        some "payment_failed"⟩, "N"⟩, ?_, rfl, rfl⟩
    simp [OrderSvc.handle_payment_failed, hproc, ho,
      OrderSvc.update_order_status, OrderSvc.add_outbox_event,
      OrderSvc.mark_event_processed]

/-- Witness for C10: a concrete inventory.reserved event for the order
ORD-1 of the sample database stages an order.reservation_confirmed
payload carrying the inbound event_id EV-2. -/
theorem C10_staged_event_id_reused_witness :
    ∃ row, (OrderSvc.handle_inventory_reserved
        ⟨"EV-2", "inventory.reserved", "CORR-1", "ORD-1", "U-1", [], 0, "P1",
          none, none⟩ ECom.sampleDB).outbox =
      ECom.sampleDB.outbox ++ [row] ∧
      row.event_type = "order.reservation_confirmed" ∧
      row.event_data.event_id = "EV-2" :=
  (C10_staged_event_id_reused
    ⟨"EV-2", "inventory.reserved", "CORR-1", "ORD-1", "U-1", [], 0, "P1",
      none, none⟩ ECom.sampleDB (by decide)).2.1 ECom.sampleOrder (by decide)

namespace ECom.OrderSvc

/-- After mark_event_processed, the event_id is in the ledger. -/
theorem is_event_processed_mark (db : OrderDB) (eid t : String) :
    is_event_processed (mark_event_processed db eid t) eid = true := by
  simp [is_event_processed, mark_event_processed]

/-- An already-processed event_id short-circuits every saga handler. -/
theorem handlers_skip_processed (e : Event) (db : OrderDB)
    (hp : is_event_processed db e.event_id = true) :
    handle_cart_checkout_initiated e db = db ∧
    handle_inventory_reserved e db = db ∧
    handle_inventory_depleted e db = db ∧
    handle_payment_processed e db = db ∧
    handle_payment_failed e db = db ∧
    handle_order_fulfilled e db = db := by
  refine ⟨?_, ?_, ?_, ?_, ?_, ?_⟩ <;>
    simp [handle_cart_checkout_initiated, handle_inventory_reserved,
      handle_inventory_depleted, handle_payment_processed, handle_payment_failed,
      handle_order_fulfilled, hp]

/-- Each saga handler either leaves the database untouched or leaves the
event_id recorded in the idempotency ledger. -/
theorem handlers_skip_or_record (e : Event) (db : OrderDB) :
    (handle_cart_checkout_initiated e db = db ∨
      is_event_processed (handle_cart_checkout_initiated e db) e.event_id = true) ∧
    (handle_inventory_reserved e db = db ∨
      is_event_processed (handle_inventory_reserved e db) e.event_id = true) ∧
    (handle_inventory_depleted e db = db ∨
      is_event_processed (handle_inventory_depleted e db) e.event_id = true) ∧
    (handle_payment_processed e db = db ∨
      is_event_processed (handle_payment_processed e db) e.event_id = true) ∧
    (handle_payment_failed e db = db ∨
      is_event_processed (handle_payment_failed e db) e.event_id = true) ∧
    (handle_order_fulfilled e db = db ∨
      is_event_processed (handle_order_fulfilled e db) e.event_id = true) := by
  by_cases hp : is_event_processed db e.event_id = true
  · have h := handlers_skip_processed e db hp
    exact ⟨Or.inl h.1, Or.inl h.2.1, Or.inl h.2.2.1, Or.inl h.2.2.2.1,
      Or.inl h.2.2.2.2.1, Or.inl h.2.2.2.2.2⟩
  · replace hp : is_event_processed db e.event_id = false := by
      revert hp; cases is_event_processed db e.event_id <;> simp
    refine ⟨Or.inr ?_, ?_, ?_, ?_, ?_, ?_⟩
    · simp [handle_cart_checkout_initiated, hp, is_event_processed_mark]
    · cases hgo : get_order db e.order_id with
      | none => exact Or.inl (by simp [handle_inventory_reserved, hp, hgo])
      | some o =>
        exact Or.inr (by simp [handle_inventory_reserved, hp, hgo,
          is_event_processed_mark])
    · cases hgo : get_order db e.order_id with
      | none => exact Or.inl (by simp [handle_inventory_depleted, hp, hgo])
      | some o =>
        exact Or.inr (by simp [handle_inventory_depleted, hp, hgo,
          is_event_processed_mark])
    · cases hgo : get_order db e.order_id with
      | none => exact Or.inl (by simp [handle_payment_processed, hp, hgo])
      | some o =>
        exact Or.inr (by simp [handle_payment_processed, hp, hgo,
          is_event_processed_mark])
    · cases hgo : get_order db e.order_id with
      | none => exact Or.inl (by simp [handle_payment_failed, hp, hgo])
      | some o =>
        exact Or.inr (by simp [handle_payment_failed, hp, hgo,
          is_event_processed_mark])
    · cases hgo : get_order db e.order_id with
      | none => exact Or.inl (by simp [handle_order_fulfilled, hp, hgo])
      | some o =>
        exact Or.inr (by simp [handle_order_fulfilled, hp, hgo,
          is_event_processed_mark])

/-- Redelivering any event to the dispatcher is a no-op. -/
theorem handle_event_idem (e : Event) (db : OrderDB) :
    handle_event e (handle_event e db) = handle_event e db := by
  have skip : ∀ d, is_event_processed d e.event_id = true →
      handle_event e d = d := by
    intro d hd
    have h := handlers_skip_processed e d hd
    rw [handle_event]
    split
    · exact h.1
    split
    · exact h.2.1
    split
    · exact h.2.2.1
    split
    · exact h.2.2.2.1
    split
    · exact h.2.2.2.2.1
    split
    · exact h.2.2.2.2.2
    · rfl
  have rec : handle_event e db = db ∨
      is_event_processed (handle_event e db) e.event_id = true := by
    have h := handlers_skip_or_record e db
    rw [handle_event]
    split
    · exact h.1
    split
    · exact h.2.1
    split
    · exact h.2.2.1
    split
    · exact h.2.2.2.1
    split
    · exact h.2.2.2.2.1
    split
    · exact h.2.2.2.2.2
    · exact Or.inl rfl
  cases rec with
  | inl h => rw [h]; exact h
  | inr h => exact skip _ h

end ECom.OrderSvc

/-- C3: delivering an event with the same event_id N ≥ 1 times to the
order-service dispatcher yields exactly the state of delivering it once
(hence the same staged outbox rows and ProcessedEvent rows); and a
single fresh delivery stages exactly one outbox event and appends
exactly one ProcessedEvent row (for order.fulfilled, which stages
nothing, exactly the ProcessedEvent row), because every handler checks
the idempotency ledger before mutating. -/
theorem C3_redelivery_idempotent (e : Event) (db : OrderSvc.OrderDB) (n : Nat)
    (hn : 1 ≤ n) :
    (OrderSvc.handle_event e)^[n] db = OrderSvc.handle_event e db
    ∧ (OrderSvc.is_event_processed db e.event_id = false →
        (e.event_type = "cart.checkout_initiated" →
          (OrderSvc.handle_event e db).outbox.length = db.outbox.length + 1 ∧
          (OrderSvc.handle_event e db).processed.length = db.processed.length + 1)
        ∧ (∀ o, OrderSvc.get_order db e.order_id = some o →
            e.event_type ∈ ["inventory.reserved", "inventory.depleted",
              "payment.processed", "payment.failed"] →
            (OrderSvc.handle_event e db).outbox.length = db.outbox.length + 1 ∧
            (OrderSvc.handle_event e db).processed.length = db.processed.length + 1)
        ∧ (∀ o, OrderSvc.get_order db e.order_id = some o →
            e.event_type = "order.fulfilled" →
            (OrderSvc.handle_event e db).outbox.length = db.outbox.length ∧
            (OrderSvc.handle_event e db).processed.length =
              db.processed.length + 1)) := by
  constructor
  · have hiter : ∀ m, (OrderSvc.handle_event e)^[m + 1] db =
        OrderSvc.handle_event e db := by
      intro m
      induction m with
      | zero => simp
      | succ k ih =>
        rw [Function.iterate_succ_apply', ih, OrderSvc.handle_event_idem]
    obtain ⟨m, rfl⟩ : ∃ m, n = m + 1 :=
      ⟨n - 1, (Nat.succ_pred_eq_of_pos hn).symm⟩
    exact hiter m
  · intro hp
    refine ⟨?_, ?_, ?_⟩
    · intro ht
      simp [OrderSvc.handle_event, ht, OrderSvc.handle_cart_checkout_initiated,
        hp, OrderSvc.create_order, OrderSvc.add_outbox_event,
        OrderSvc.mark_event_processed]
    · intro o ho ht
      simp only [List.mem_cons, List.not_mem_nil, or_false] at ht
      rcases ht with ht | ht | ht | ht <;>
        simp [OrderSvc.handle_event, ht, OrderSvc.handle_inventory_reserved,
          OrderSvc.handle_inventory_depleted, OrderSvc.handle_payment_processed,
          OrderSvc.handle_payment_failed, hp, ho, OrderSvc.update_order_status,
          OrderSvc.add_outbox_event, OrderSvc.mark_event_processed]
    · intro o ho ht
      simp [OrderSvc.handle_event, ht, OrderSvc.handle_order_fulfilled, hp, ho,
        OrderSvc.update_order_status, OrderSvc.mark_event_processed]

/-- Witness for C3: delivering a concrete inventory.reserved event three
times to the sample database equals delivering it once, and the single
delivery stages one outbox row and one ProcessedEvent row. -/
theorem C3_redelivery_idempotent_witness :
    (OrderSvc.handle_event
        ⟨"EV-2", "inventory.reserved", "CORR-1", "ORD-1", "U-1", [], 0, "P1",
          none, none⟩)^[3] ECom.sampleDB =
      OrderSvc.handle_event
        ⟨"EV-2", "inventory.reserved", "CORR-1", "ORD-1", "U-1", [], 0, "P1",
          none, none⟩ ECom.sampleDB ∧
    (OrderSvc.handle_event
        ⟨"EV-2", "inventory.reserved", "CORR-1", "ORD-1", "U-1", [], 0, "P1",
          none, none⟩ ECom.sampleDB).outbox.length =
      ECom.sampleDB.outbox.length + 1 := by
  have h := C3_redelivery_idempotent
    ⟨"EV-2", "inventory.reserved", "CORR-1", "ORD-1", "U-1", [], 0, "P1",
      none, none⟩ ECom.sampleDB 3 (by decide)
  exact ⟨h.1, ((h.2 (by decide)).2.1 ECom.sampleOrder (by decide)
    (by decide)).1⟩

namespace ECom.OrderSvc

/-- set_status writes a status from the allowed set and keeps every
other row's status. -/
theorem set_status_valid (oid st : String) (hst : st ∈ STATUSES) :
    ∀ l : List Order, (∀ o ∈ l, o.status ∈ STATUSES) →
      ∀ o ∈ set_status oid st l, o.status ∈ STATUSES := by
  intro l
  induction l with
  | nil => intro _ o ho; simp [set_status] at ho
  | cons x xs ih =>
    intro hl o ho
    rw [set_status] at ho
    by_cases h : x.order_id == oid
    · rw [if_pos h] at ho
      rcases List.mem_cons.mp ho with rfl | ho
      · exact hst
      · exact hl o (List.mem_cons_of_mem _ ho)
    · rw [if_neg h] at ho
      rcases List.mem_cons.mp ho with rfl | ho
      · exact hl _ (List.mem_cons_self _ _)
      · exact ih (fun o' ho' => hl o' (List.mem_cons_of_mem _ ho')) o ho

/-- Looking up the targeted order after set_status yields the same row
with the new status. -/
theorem find_set_status (oid st : String) :
    ∀ l : List Order,
      (set_status oid st l).find? (fun o => o.order_id == oid) =
        (l.find? (fun o => o.order_id == oid)).map
          (fun o => ⟨o.order_id, o.user_id, o.items, o.total_amount, st⟩) := by
  intro l
  induction l with
  | nil => simp [set_status]
  | cons x xs ih =>
    rw [set_status]
    by_cases h : x.order_id == oid
    · rw [if_pos h]
      have h2 : List.find? (fun o : Order => o.order_id == oid)
          (⟨x.order_id, x.user_id, x.items, x.total_amount, st⟩ :: xs) =
          some ⟨x.order_id, x.user_id, x.items, x.total_amount, st⟩ :=
        List.find?_cons_of_pos xs h
      have h3 : List.find? (fun o : Order => o.order_id == oid) (x :: xs) =
          some x :=
        List.find?_cons_of_pos xs h
      rw [h2, h3]
      rfl
    · rw [if_neg h]
      have hb : (x.order_id == oid) = false := by
        revert h; cases x.order_id == oid <;> simp
      have h2 : List.find? (fun o : Order => o.order_id == oid)
          (x :: set_status oid st xs) =
          List.find? (fun o : Order => o.order_id == oid) (set_status oid st xs) :=
        List.find?_cons_of_neg _ (by simp [hb])
      have h3 : List.find? (fun o : Order => o.order_id == oid) (x :: xs) =
          List.find? (fun o : Order => o.order_id == oid) xs :=
        List.find?_cons_of_neg _ (by simp [hb])
      rw [h2, h3]
      exact ih

/-- Every saga handler writes only statuses from the allowed set. -/
theorem handle_event_valid (e : Event) (db : OrderDB) (h : AllValid db) :
    AllValid (handle_event e db) := by
  have hcart : AllValid (handle_cart_checkout_initiated e db) := by
    by_cases hp : is_event_processed db e.event_id = true
    · rw [(handlers_skip_processed e db hp).1]; exact h
    · replace hp : is_event_processed db e.event_id = false := by
        revert hp; cases is_event_processed db e.event_id <;> simp
      intro o ho
      simp only [handle_cart_checkout_initiated, hp, Bool.false_eq_true,
        if_false, create_order, add_outbox_event, mark_event_processed] at ho
      rcases List.mem_append.mp ho with ho | ho
      · exact h o ho
      · rcases List.mem_singleton.mp ho with rfl
        simp [STATUSES]
  have hupd : ∀ st, st ∈ STATUSES →
      AllValid (update_order_status db e.order_id st) := by
    intro st hst o ho
    exact set_status_valid e.order_id st hst db.orders h o ho
  rw [handle_event]
  split
  · exact hcart
  split
  · by_cases hp : is_event_processed db e.event_id = true
    · rw [(handlers_skip_processed e db hp).2.1]; exact h
    · replace hp : is_event_processed db e.event_id = false := by
        revert hp; cases is_event_processed db e.event_id <;> simp
      cases hgo : get_order db e.order_id with
      | none => simp only [handle_inventory_reserved, hp, Bool.false_eq_true,
          if_false, hgo]; exact h
      | some o =>
        intro o' ho'
        simp only [handle_inventory_reserved, hp, Bool.false_eq_true, if_false,
          hgo, update_order_status, add_outbox_event,
          mark_event_processed] at ho'
        exact set_status_valid e.order_id _ (by simp [STATUSES]) db.orders h o' ho'
  split
  · by_cases hp : is_event_processed db e.event_id = true
    · rw [(handlers_skip_processed e db hp).2.2.1]; exact h
    · replace hp : is_event_processed db e.event_id = false := by
        revert hp; cases is_event_processed db e.event_id <;> simp
      cases hgo : get_order db e.order_id with
      | none => simp only [handle_inventory_depleted, hp, Bool.false_eq_true,
          if_false, hgo]; exact h
      | some o =>
        intro o' ho'
        simp only [handle_inventory_depleted, hp, Bool.false_eq_true, if_false,
          hgo, update_order_status, add_outbox_event,
          mark_event_processed] at ho'
        exact set_status_valid e.order_id _ (by simp [STATUSES]) db.orders h o' ho'
  split
  · by_cases hp : is_event_processed db e.event_id = true
    · rw [(handlers_skip_processed e db hp).2.2.2.1]; exact h
    · replace hp : is_event_processed db e.event_id = false := by
        revert hp; cases is_event_processed db e.event_id <;> simp
      cases hgo : get_order db e.order_id with
      | none => simp only [handle_payment_processed, hp, Bool.false_eq_true,
          if_false, hgo]; exact h
      | some o =>
        intro o' ho'
        simp only [handle_payment_processed, hp, Bool.false_eq_true, if_false,
          hgo, update_order_status, add_outbox_event,
          mark_event_processed] at ho'
        exact set_status_valid e.order_id _ (by simp [STATUSES]) db.orders h o' ho'
  split
  · by_cases hp : is_event_processed db e.event_id = true
    · rw [(handlers_skip_processed e db hp).2.2.2.2.1]; exact h
    · replace hp : is_event_processed db e.event_id = false := by
        revert hp; cases is_event_processed db e.event_id <;> simp
      cases hgo : get_order db e.order_id with
      | none => simp only [handle_payment_failed, hp, Bool.false_eq_true,
          if_false, hgo]; exact h
      | some o =>
        intro o' ho'
        simp only [handle_payment_failed, hp, Bool.false_eq_true, if_false,
          hgo, update_order_status, add_outbox_event,
          mark_event_processed] at ho'
        exact set_status_valid e.order_id _ (by simp [STATUSES]) db.orders h o' ho'
  split
  · by_cases hp : is_event_processed db e.event_id = true
    · rw [(handlers_skip_processed e db hp).2.2.2.2.2]; exact h
    · replace hp : is_event_processed db e.event_id = false := by
        revert hp; cases is_event_processed db e.event_id <;> simp
      cases hgo : get_order db e.order_id with
      | none => simp only [handle_order_fulfilled, hp, Bool.false_eq_true,
          if_false, hgo]; exact h
      | some o =>
        intro o' ho'
        simp only [handle_order_fulfilled, hp, Bool.false_eq_true, if_false,
          hgo, update_order_status, mark_event_processed] at ho'
        exact set_status_valid e.order_id _ (by simp [STATUSES]) db.orders h o' ho'
  · exact h

/-- Status validity is preserved across any delivered event sequence. -/
theorem deliver_valid (events : List Event) :
    ∀ db : OrderDB, AllValid db → AllValid (deliver events db) := by
  induction events with
  | nil => intro db h; exact h
  | cons e es ih => intro db h; exact ih _ (handle_event_valid e db h)

end ECom.OrderSvc

/-- C1 counterexample: delivering a fresh inventory.reserved event for an
already-CANCELLED order does not leave the status unchanged — the saga
handler checks only the idempotency ledger and the order's existence,
never its current status, so the order becomes RESERVATION_CONFIRMED, a
transition outside the §4.3 table. -/
theorem C1_counterexample_unguarded_transition :
    OrderSvc.get_order ECom.cancelledDB "ORD-1" =
      some ⟨"ORD-1", "U-1", [⟨"P1", 1⟩], 30, "CANCELLED"⟩ ∧
    OrderSvc.get_order
        (OrderSvc.handle_event
          ⟨"EV-9", "inventory.reserved", "CORR-1", "ORD-1", "U-1", [], 0, "P1",
            none, none⟩ ECom.cancelledDB) "ORD-1" =
      some ⟨"ORD-1", "U-1", [⟨"P1", 1⟩], 30, "RESERVATION_CONFIRMED"⟩ := by
  constructor <;> decide

/-- C1 (amended): under every delivered event sequence (duplicates and
reorderings included) each order's status stays inside {PENDING,
RESERVATION_CONFIRMED, PAID, CANCELLED, FULFILLED}; but the handlers
validate only the idempotency ledger and the existence of the order, not
its current status: a fresh inventory.reserved event for an existing
order overwrites the status with RESERVATION_CONFIRMED whatever the
current status was, so status changes are not confined to the transition
table of §4.3. -/
theorem C1_statuses_closed_but_unguarded (events : List Event)
    (db : OrderSvc.OrderDB) (hv : OrderSvc.AllValid db) (e : Event)
    (o : OrderSvc.Order) (ht : e.event_type = "inventory.reserved")
    (hp : OrderSvc.is_event_processed db e.event_id = false)
    (ho : OrderSvc.get_order db e.order_id = some o) :
    OrderSvc.AllValid (OrderSvc.deliver events db) ∧
    OrderSvc.get_order (OrderSvc.handle_event e db) e.order_id =
      some ⟨o.order_id, o.user_id, o.items, o.total_amount,
        "RESERVATION_CONFIRMED"⟩ := by
  refine ⟨OrderSvc.deliver_valid events db hv, ?_⟩
  have hout : OrderSvc.handle_event e db = OrderSvc.handle_inventory_reserved e db := by
    simp [OrderSvc.handle_event, ht]
  rw [hout]
  simp only [OrderSvc.handle_inventory_reserved, hp, Bool.false_eq_true,
    if_false, ho, OrderSvc.update_order_status, OrderSvc.add_outbox_event,
    OrderSvc.mark_event_processed]
  rw [OrderSvc.get_order, OrderSvc.find_set_status]
  rw [OrderSvc.get_order] at ho
  rw [ho]
  rfl

/-- Witness for C1 (amended) at a concrete input: the CANCELLED-order
database with the sequence consisting of just the fresh
inventory.reserved event. -/
theorem C1_statuses_closed_but_unguarded_witness :
    OrderSvc.AllValid (OrderSvc.deliver
        [⟨"EV-9", "inventory.reserved", "CORR-1", "ORD-1", "U-1", [], 0, "P1",
          none, none⟩] ECom.cancelledDB) ∧
    OrderSvc.get_order
        (OrderSvc.handle_event
          ⟨"EV-9", "inventory.reserved", "CORR-1", "ORD-1", "U-1", [], 0, "P1",
            none, none⟩ ECom.cancelledDB) "ORD-1" =
      some ⟨"ORD-1", "U-1", [⟨"P1", 1⟩], 30, "RESERVATION_CONFIRMED"⟩ :=
  C1_statuses_closed_but_unguarded
    [⟨"EV-9", "inventory.reserved", "CORR-1", "ORD-1", "U-1", [], 0, "P1",
      none, none⟩]
    ECom.cancelledDB (by intro o ho; fin_cases ho; simp [OrderSvc.STATUSES])
    ⟨"EV-9", "inventory.reserved", "CORR-1", "ORD-1", "U-1", [], 0, "P1",
      none, none⟩
    ⟨"ORD-1", "U-1", [⟨"P1", 1⟩], 30, "CANCELLED"⟩ rfl (by decide) (by decide)

namespace ECom.InvSvc

/-- release_stock leaves the stock_reservations table untouched. -/
theorem release_stock_reservations (db : InvState) (pid : String) (qty : Int) :
    (release_stock db pid qty).2.reservations = db.reservations := by
  rw [release_stock]
  cases get_product db pid <;> rfl

/-- Releasing one reservation row deletes exactly the rows with its
primary key from stock_reservations. -/
theorem release_reservation_reservations (db : InvState) (r : ReservationRow) :
    (release_reservation db r).reservations =
      db.reservations.filter fun x => x.rid ≠ r.rid := by
  rw [release_reservation, delete_reservation]
  rw [release_stock_reservations]

/-- The compensation fold deletes exactly the rows whose primary key
occurs among the released reservations. -/
theorem foldl_release_reservations :
    ∀ (rs : List ReservationRow) (db : InvState),
      (rs.foldl release_reservation db).reservations =
        db.reservations.filter fun x => rs.all fun r => x.rid != r.rid
  | [], db => by
    simp [List.all_nil]
  | r :: rs, db => by
    rw [List.foldl_cons, foldl_release_reservations rs (release_reservation db r),
      release_reservation_reservations, List.filter_filter]
    apply List.filter_congr
    intro x _
    by_cases h : x.rid = r.rid <;> simp [h, List.all_cons]

/-- A successful sequential reserve_stock appends exactly one
stock_reservations row, carrying the order, product and quantity. -/
theorem reserve_stock_ok_appends (db : InvState) (oid pid : String) (qty : Int)
    (h : (reserve_stock db oid pid qty).1 = true) :
    (reserve_stock db oid pid qty).2.reservations =
      db.reservations ++ [⟨db.nextRid, oid, pid, qty⟩] := by
  rw [reserve_stock] at h ⊢
  revert h
  cases hgp : get_product db pid with
  | none => intro h; simp at h
  | some p =>
    intro h
    by_cases hs : p.stock < qty
    · simp [hs] at h
    · simp [hs]

/-- Looking up the released product after add_stock yields the same row
with stock incremented and version bumped. -/
theorem find_add_stock (pid : String) (qty : Int) :
    ∀ l : List ProductRow,
      (add_stock pid qty l).find? (fun p => p.product_id == pid) =
        (l.find? (fun p => p.product_id == pid)).map
          (fun p => ⟨p.product_id, p.stock + qty, p.version + 1⟩) := by
  intro l
  induction l with
  | nil => simp [add_stock]
  | cons x xs ih =>
    rw [add_stock]
    by_cases h : x.product_id == pid
    · rw [if_pos h]
      have h2 : List.find? (fun p : ProductRow => p.product_id == pid)
          (⟨x.product_id, x.stock + qty, x.version + 1⟩ :: xs) =
          some ⟨x.product_id, x.stock + qty, x.version + 1⟩ :=
        List.find?_cons_of_pos xs h
      have h3 : List.find? (fun p : ProductRow => p.product_id == pid) (x :: xs) =
          some x :=
        List.find?_cons_of_pos xs h
      rw [h2, h3]
      rfl
    · rw [if_neg h]
      have hb : (x.product_id == pid) = false := by
        revert h; cases x.product_id == pid <;> simp
      have h2 : List.find? (fun p : ProductRow => p.product_id == pid)
          (x :: add_stock pid qty xs) =
          List.find? (fun p : ProductRow => p.product_id == pid)
            (add_stock pid qty xs) :=
        List.find?_cons_of_neg _ (by simp [hb])
      have h3 : List.find? (fun p : ProductRow => p.product_id == pid) (x :: xs) =
          List.find? (fun p : ProductRow => p.product_id == pid) xs :=
        List.find?_cons_of_neg _ (by simp [hb])
      rw [h2, h3]
      exact ih

/-- release_stock on an existing product returns True, increments its
stock by exactly qty and bumps its version by exactly 1. -/
theorem release_stock_effect (db : InvState) (pid : String) (qty : Int)
    (p : ProductRow) (h : get_product db pid = some p) :
    (release_stock db pid qty).1 = true ∧
    get_product (release_stock db pid qty).2 pid =
      some ⟨p.product_id, p.stock + qty, p.version + 1⟩ := by
  rw [release_stock, h]
  refine ⟨rfl, ?_⟩
  show (⟨add_stock pid qty db.products, db.reservations,
    db.nextRid⟩ : InvState).products.find? (fun p => p.product_id == pid) = _
  rw [find_add_stock]
  rw [get_product] at h
  rw [h]
  rfl

end ECom.InvSvc

/-- C4: an order.cancelled event with cancellation_source=payment_failed
makes the inventory handler call release_stock exactly once per
stock_reservations row of that order (and a successful reserve_stock
appended exactly one such row), each release incrementing the product's
stock by the reserved quantity and bumping its version by 1, and the
handler deletes each released row; any other cancellation_source — in
particular inventory_depleted — triggers zero release_stock calls and
leaves the state untouched. -/
theorem C4_cancellation_compensation (e : Event) (db : InvSvc.InvState)
    (hnodup : (db.reservations.map fun r => r.rid).Nodup) :
    (e.cancellation_source = some "payment_failed" →
      (InvSvc.handle_order_cancelled e db).2 =
        (db.reservations.filter fun r => r.order_id == e.order_id).length ∧
      (InvSvc.handle_order_cancelled e db).1.reservations =
        db.reservations.filter fun r => !(r.order_id == e.order_id))
    ∧ (e.cancellation_source ≠ some "payment_failed" →
        InvSvc.handle_order_cancelled e db = (db, 0))
    ∧ (∀ oid pid qty, (InvSvc.reserve_stock db oid pid qty).1 = true →
        (InvSvc.reserve_stock db oid pid qty).2.reservations =
          db.reservations ++ [⟨db.nextRid, oid, pid, qty⟩])
    ∧ (∀ pid qty p, InvSvc.get_product db pid = some p →
        (InvSvc.release_stock db pid qty).1 = true ∧
        InvSvc.get_product (InvSvc.release_stock db pid qty).2 pid =
          some ⟨p.product_id, p.stock + qty, p.version + 1⟩) := by
  refine ⟨?_, ?_,
    fun oid pid qty h => InvSvc.reserve_stock_ok_appends db oid pid qty h,
    fun pid qty p h => InvSvc.release_stock_effect db pid qty p h⟩
  · intro hsrc
    have hif : (e.cancellation_source == some "payment_failed") = true := by
      simp [hsrc]
    refine ⟨by rw [InvSvc.handle_order_cancelled, if_pos hif], ?_⟩
    rw [InvSvc.handle_order_cancelled, if_pos hif]
    show (((db.reservations.filter fun r => r.order_id == e.order_id).foldl
      InvSvc.release_reservation db)).reservations = _
    rw [InvSvc.foldl_release_reservations]
    apply List.filter_congr
    intro x hx
    by_cases hxo : (x.order_id == e.order_id) = true
    · have hxrs : x ∈ db.reservations.filter fun r => r.order_id == e.order_id :=
        List.mem_filter.mpr ⟨hx, hxo⟩
      cases hall : (db.reservations.filter fun r => r.order_id == e.order_id).all
          fun r => x.rid != r.rid with
      | true =>
        exfalso
        have h2 := List.all_eq_true.mp hall x hxrs
        simp at h2
      | false => simp [hxo]
    · have hxo' : (x.order_id == e.order_id) = false := by
        revert hxo; cases x.order_id == e.order_id <;> simp
      rw [hxo', Bool.not_false]
      apply List.all_eq_true.mpr
      intro r hr
      have hrmem := (List.mem_filter.mp hr).1
      have hrord := (List.mem_filter.mp hr).2
      have hne : ¬ x.rid = r.rid := by
        intro hrid
        have hxr := List.inj_on_of_nodup_map hnodup hx hrmem hrid
        rw [hxr, hrord] at hxo'
        simp at hxo'
      simp [hne]
  · intro hsrc
    have hif : (e.cancellation_source == some "payment_failed") = false := by
      cases hc : e.cancellation_source == some "payment_failed"
      · rfl
      · exact absurd (by simpa using hc) hsrc
    rw [InvSvc.handle_order_cancelled, if_neg (by simp [hif])]

/-- Witness for C4 at a concrete input: a payment_failed cancellation of
ORD-1 against a database holding one reservation for ORD-1 performs one
release and leaves no reservation row for the order. -/
theorem C4_cancellation_compensation_witness :
    (InvSvc.handle_order_cancelled ECom.samplePFCancelEvent
        ECom.reservedInvDB).2 =
      (ECom.reservedInvDB.reservations.filter
        fun r => r.order_id == ECom.samplePFCancelEvent.order_id).length ∧
    (InvSvc.handle_order_cancelled ECom.samplePFCancelEvent
        ECom.reservedInvDB).1.reservations =
      ECom.reservedInvDB.reservations.filter
        fun r => !(r.order_id == ECom.samplePFCancelEvent.order_id) :=
  (C4_cancellation_compensation ECom.samplePFCancelEvent ECom.reservedInvDB
    (by decide)).1 rfl

namespace ECom.InvSvc

/-- A failed sequential reserve_stock leaves the database untouched. -/
theorem reserve_stock_fail_id (db : InvState) (oid pid : String) (qty : Int)
    (h : (reserve_stock db oid pid qty).1 = false) :
    (reserve_stock db oid pid qty).2 = db := by
  rw [reserve_stock] at h ⊢
  revert h
  cases hgp : get_product db pid with
  | none => intro _; rfl
  | some p =>
    intro h
    by_cases hs : p.stock < qty
    · simp [hs]
    · simp [hs] at h

/-- A successful sequential reserve_stock updates the products table by
exactly the guarded UPDATE sub_stock. -/
theorem reserve_stock_ok_products (db : InvState) (oid pid : String) (qty : Int)
    (h : (reserve_stock db oid pid qty).1 = true) :
    (reserve_stock db oid pid qty).2.products = sub_stock pid qty db.products := by
  rw [reserve_stock] at h ⊢
  revert h
  cases hgp : get_product db pid with
  | none => intro h; simp at h
  | some p =>
    intro h
    by_cases hs : p.stock < qty
    · simp [hs] at h
    · simp [hs]

/-- Row-wise domination: same length, same product ids, stock no larger
on the left, row by row. -/
def StockLE : List ProductRow → List ProductRow → Prop :=
  List.Forall₂ fun a b => a.product_id = b.product_id ∧ a.stock ≤ b.stock

theorem stockLE_refl : ∀ l : List ProductRow, StockLE l l
  | [] => List.Forall₂.nil
  | _ :: xs => List.Forall₂.cons ⟨rfl, le_refl _⟩ (stockLE_refl xs)

theorem stockLE_trans :
    ∀ {l1 l2 l3 : List ProductRow}, StockLE l1 l2 → StockLE l2 l3 →
      StockLE l1 l3
  | _, _, _, List.Forall₂.nil, List.Forall₂.nil => List.Forall₂.nil
  | _, _, _, List.Forall₂.cons h12 t12, List.Forall₂.cons h23 t23 =>
    List.Forall₂.cons ⟨h12.1.trans h23.1, h12.2.trans h23.2⟩
      (stockLE_trans t12 t23)

/-- The guarded decrement only lowers stock (for a nonnegative
quantity) and preserves product ids. -/
theorem sub_stock_stockLE (pid : String) (qty : Int) (hq : 0 ≤ qty) :
    ∀ l : List ProductRow, StockLE (sub_stock pid qty l) l
  | [] => List.Forall₂.nil
  | x :: xs => by
    rw [sub_stock]
    by_cases h : x.product_id == pid
    · rw [if_pos h]
      exact List.Forall₂.cons ⟨rfl, show x.stock - qty ≤ x.stock by omega⟩
        (stockLE_refl xs)
    · rw [if_neg h]
      exact List.Forall₂.cons ⟨rfl, le_refl _⟩ (sub_stock_stockLE pid qty hq xs)

/-- One loop iteration returns the accumulated messages plus its own. -/
theorem reserve_item_acc (oid : String) (db : InvState) (ms : List InvMsg)
    (it : Item) :
    reserve_item oid (db, ms) it =
      ((reserve_item oid (db, []) it).1,
        ms ++ (reserve_item oid (db, []) it).2) := by
  rw [reserve_item, reserve_item]
  by_cases hok : (reserve_stock db oid it.product_id it.quantity).1 = true
  · simp only [hok, if_true]
    cases get_stock_level (reserve_stock db oid it.product_id it.quantity).2
        it.product_id with
    | none => simp
    | some cs => by_cases hlt : cs < LOW_STOCK_THRESHOLD <;> simp [hlt]
  · replace hok : (reserve_stock db oid it.product_id it.quantity).1 = false := by
      revert hok; cases (reserve_stock db oid it.product_id it.quantity).1 <;> simp
    simp [hok]

/-- The item fold with a primed accumulator. -/
theorem foldl_reserve_item_acc (oid : String) :
    ∀ (items : List Item) (db : InvState) (ms : List InvMsg),
      items.foldl (reserve_item oid) (db, ms) =
        ((items.foldl (reserve_item oid) (db, [])).1,
          ms ++ (items.foldl (reserve_item oid) (db, [])).2)
  | [], db, ms => by simp
  | it :: items, db, ms => by
    rw [List.foldl_cons, List.foldl_cons, reserve_item_acc,
      foldl_reserve_item_acc oid items (reserve_item oid (db, []) it).1
        (ms ++ (reserve_item oid (db, []) it).2),
      foldl_reserve_item_acc oid items (reserve_item oid (db, []) it).1
        (reserve_item oid (db, []) it).2]
    simp

/-- A failing item publishes exactly one inventory.depleted event and
leaves the database untouched; the loop then moves to the next item. -/
theorem reserve_item_fail (oid : String) (db : InvState) (it : Item)
    (h : (reserve_stock db oid it.product_id it.quantity).1 = false) :
    reserve_item oid (db, []) it = (db, [.depleted oid it.product_id]) := by
  rw [reserve_item]
  simp only [h, Bool.false_eq_true, if_false, List.nil_append]
  rw [reserve_stock_fail_id db oid it.product_id it.quantity h]

/-- A succeeding item applies exactly the reserve_stock mutation and
publishes inventory.reserved, followed by inventory.low when the
remaining stock is below the threshold. -/
theorem reserve_item_ok (oid : String) (db : InvState) (it : Item)
    (h : (reserve_stock db oid it.product_id it.quantity).1 = true) :
    (reserve_item oid (db, []) it).1 =
      (reserve_stock db oid it.product_id it.quantity).2 ∧
    ((reserve_item oid (db, []) it).2 =
        [.reserved oid it.product_id it.quantity] ∨
      ∃ cs, cs < LOW_STOCK_THRESHOLD ∧
        (reserve_item oid (db, []) it).2 =
          [.reserved oid it.product_id it.quantity,
            .low it.product_id cs LOW_STOCK_THRESHOLD]) := by
  rw [reserve_item]
  simp only [h, if_true]
  cases get_stock_level (reserve_stock db oid it.product_id it.quantity).2
      it.product_id with
  | none => exact ⟨rfl, Or.inl rfl⟩
  | some cs =>
    by_cases hlt : cs < LOW_STOCK_THRESHOLD
    · exact ⟨by simp [hlt], Or.inr ⟨cs, hlt, by simp [hlt]⟩⟩
    · exact ⟨by simp [hlt], Or.inl (by simp [hlt])⟩

/-- Across one loop iteration the reservation table only grows and the
products table only loses stock. -/
theorem reserve_item_mono (oid : String) (db : InvState) (ms : List InvMsg)
    (it : Item) (hq : 0 ≤ it.quantity) :
    (∃ tail, (reserve_item oid (db, ms) it).1.reservations =
      db.reservations ++ tail) ∧
    StockLE (reserve_item oid (db, ms) it).1.products db.products := by
  rw [reserve_item_acc]
  by_cases hok : (reserve_stock db oid it.product_id it.quantity).1 = true
  · obtain ⟨h1, _⟩ := reserve_item_ok oid db it hok
    rw [h1]
    constructor
    · exact ⟨_, reserve_stock_ok_appends db oid it.product_id it.quantity hok⟩
    · rw [reserve_stock_ok_products db oid it.product_id it.quantity hok]
      exact sub_stock_stockLE it.product_id it.quantity hq db.products
  · replace hok : (reserve_stock db oid it.product_id it.quantity).1 = false := by
      revert hok; cases (reserve_stock db oid it.product_id it.quantity).1 <;> simp
    rw [reserve_item_fail oid db it hok]
    exact ⟨⟨[], by simp⟩, stockLE_refl db.products⟩

/-- Across the whole item fold the reservation table only grows and the
products table only loses stock: nothing is ever rolled back. -/
theorem foldl_reserve_item_mono (oid : String) :
    ∀ (items : List Item) (db : InvState) (ms : List InvMsg),
      (∀ it ∈ items, 0 ≤ it.quantity) →
      (∃ tail, (items.foldl (reserve_item oid) (db, ms)).1.reservations =
        db.reservations ++ tail) ∧
      StockLE (items.foldl (reserve_item oid) (db, ms)).1.products db.products
  | [], db, ms, _ => ⟨⟨[], by simp⟩, stockLE_refl db.products⟩
  | it :: items, db, ms, hq => by
    rw [List.foldl_cons]
    obtain ⟨⟨tail1, ht1⟩, hs1⟩ :=
      reserve_item_mono oid db ms it (hq it (List.mem_cons_self _ _))
    obtain ⟨⟨tail2, ht2⟩, hs2⟩ :=
      foldl_reserve_item_mono oid items (reserve_item oid (db, ms) it).1
        (reserve_item oid (db, ms) it).2
        (fun x hx => hq x (List.mem_cons_of_mem _ hx))
    refine ⟨⟨tail1 ++ tail2, ?_⟩, stockLE_trans hs2 hs1⟩
    have : (items.foldl (reserve_item oid)
        ((reserve_item oid (db, ms) it).1, (reserve_item oid (db, ms) it).2)) =
        items.foldl (reserve_item oid) (reserve_item oid (db, ms) it) := by
      rfl
    rw [this] at ht2 ⊢ 
    rw [ht2, ht1, List.append_assoc]

end ECom.InvSvc

/-- C9: the order.created handler reserves each item independently and
in list order: the head item is processed first and the loop continues
with the rest whatever its outcome; a failing item publishes exactly one
inventory.depleted event and changes nothing; a succeeding item applies
exactly its own reservation and publishes inventory.reserved (plus
inventory.low when stock dropped below the threshold); and across the
whole handler the reservation table only grows and no product's stock is
ever increased — a partial multi-item reservation is never rolled back. -/
theorem C9_partial_reservation_kept (e : Event) (db : InvSvc.InvState) :
    (∀ it rest, e.items = it :: rest →
      InvSvc.handle_order_created e db =
        ((rest.foldl (InvSvc.reserve_item e.order_id)
            ((InvSvc.reserve_item e.order_id (db, []) it).1, [])).1,
          (InvSvc.reserve_item e.order_id (db, []) it).2 ++
            (rest.foldl (InvSvc.reserve_item e.order_id)
              ((InvSvc.reserve_item e.order_id (db, []) it).1, [])).2))
    ∧ (∀ (it : Item) (db0 : InvSvc.InvState),
        (InvSvc.reserve_stock db0 e.order_id it.product_id it.quantity).1 =
          false →
        InvSvc.reserve_item e.order_id (db0, []) it =
          (db0, [.depleted e.order_id it.product_id]))
    ∧ (∀ (it : Item) (db0 : InvSvc.InvState),
        (InvSvc.reserve_stock db0 e.order_id it.product_id it.quantity).1 =
          true →
        (InvSvc.reserve_item e.order_id (db0, []) it).1 =
          (InvSvc.reserve_stock db0 e.order_id it.product_id it.quantity).2 ∧
        ((InvSvc.reserve_item e.order_id (db0, []) it).2 =
            [.reserved e.order_id it.product_id it.quantity] ∨
          ∃ cs, cs < InvSvc.LOW_STOCK_THRESHOLD ∧
            (InvSvc.reserve_item e.order_id (db0, []) it).2 =
              [.reserved e.order_id it.product_id it.quantity,
                .low it.product_id cs InvSvc.LOW_STOCK_THRESHOLD]))
    ∧ ((∀ it ∈ e.items, 0 ≤ it.quantity) →
        (∃ tail, (InvSvc.handle_order_created e db).1.reservations =
          db.reservations ++ tail) ∧
        InvSvc.StockLE (InvSvc.handle_order_created e db).1.products
          db.products) := by
  refine ⟨?_, fun it db0 h => InvSvc.reserve_item_fail e.order_id db0 it h,
    fun it db0 h => InvSvc.reserve_item_ok e.order_id db0 it h, ?_⟩
  · intro it rest hi
    rw [InvSvc.handle_order_created, hi, List.foldl_cons]
    show rest.foldl (InvSvc.reserve_item e.order_id)
      ((InvSvc.reserve_item e.order_id (db, []) it).1,
        (InvSvc.reserve_item e.order_id (db, []) it).2) = _
    rw [InvSvc.foldl_reserve_item_acc e.order_id rest
      (InvSvc.reserve_item e.order_id (db, []) it).1
      (InvSvc.reserve_item e.order_id (db, []) it).2]
  · intro hq
    rw [InvSvc.handle_order_created]
    exact InvSvc.foldl_reserve_item_mono e.order_id e.items db [] hq

/-- Witness for C9 at a concrete input: a two-item order against stock
P1=1, P2=0 — the P1 reservation succeeds and stays, the P2 reservation
fails, nothing is rolled back. -/
theorem C9_partial_reservation_kept_witness :
    (∃ tail, (InvSvc.handle_order_created
        ⟨"EV-4", "order.created", "CORR-1", "ORD-1", "U-1",
          [⟨"P1", 1⟩, ⟨"P2", 1⟩], 30, "P1", none, none⟩
        ECom.sampleInvDB).1.reservations =
      ECom.sampleInvDB.reservations ++ tail) ∧
    InvSvc.StockLE (InvSvc.handle_order_created
        ⟨"EV-4", "order.created", "CORR-1", "ORD-1", "U-1",
          [⟨"P1", 1⟩, ⟨"P2", 1⟩], 30, "P1", none, none⟩
        ECom.sampleInvDB).1.products ECom.sampleInvDB.products :=
  (C9_partial_reservation_kept
    ⟨"EV-4", "order.created", "CORR-1", "ORD-1", "U-1",
      [⟨"P1", 1⟩, ⟨"P2", 1⟩], 30, "P1", none, none⟩
    ECom.sampleInvDB).2.2.2 (by decide)

namespace ECom.OrderSvc

/-- Marking an id absent from the table changes nothing. -/
theorem mark_published_not_mem (id : Nat) :
    ∀ l : List OutboxEvent, (∀ r ∈ l, (r.id == id) = false) →
      mark_published id l = l
  | [], _ => rfl
  | x :: xs, h => by
    rw [mark_published, if_neg (by simp [h x (List.mem_cons_self _ _)]),
      mark_published_not_mem id xs fun r hr => h r (List.mem_cons_of_mem _ hr)]

/-- With pairwise-distinct primary keys, marking the first match equals
marking every match. -/
theorem mark_published_map (id : Nat) :
    ∀ l : List OutboxEvent, (l.map fun r => r.id).Nodup →
      mark_published id l =
        l.map fun r =>
          if r.id == id then ⟨r.id, r.order_id, r.event_type, r.event_data, "Y"⟩
          else r
  | [], _ => rfl
  | x :: xs, h => by
    rw [List.map_cons, List.nodup_cons] at h
    rw [mark_published, List.map_cons]
    by_cases hx : x.id == id
    · rw [if_pos hx, if_pos hx]
      have hxs : ∀ r ∈ xs, ((fun r : OutboxEvent =>
          if r.id == id then
            (⟨r.id, r.order_id, r.event_type, r.event_data, "Y"⟩ : OutboxEvent)
          else r) r) = (fun y : OutboxEvent => y) r := by
        intro r hr
        have hrid : (r.id == id) = false := by
          have hne : ¬ r.id = x.id := by
            intro hcontra
            exact h.1 (hcontra ▸ List.mem_map_of_mem (fun r => r.id) hr)
          have hxid : x.id = id := by simpa using hx
          rw [← hxid]
          simpa using hne
        simp [hrid]
      rw [List.map_congr_left hxs, List.map_id']
    · rw [if_neg hx, if_neg hx, mark_published_map id xs h.2]

/-- The ids of the table are unchanged by marking. -/
theorem mark_published_ids (id : Nat) :
    ∀ l : List OutboxEvent,
      (mark_published id l).map (fun r => r.id) = l.map fun r => r.id
  | [] => rfl
  | x :: xs => by
    rw [mark_published]
    by_cases hx : x.id == id
    · rw [if_pos hx]; rfl
    · rw [if_neg hx, List.map_cons, List.map_cons, mark_published_ids id xs]

end ECom.OrderSvc

namespace ECom.OrderSvc

/-- One relay pass over any iteration list evs: a table row gets marked
"Y" exactly when some processed ev with its id had a successful publish,
and the bus receives exactly the successfully published events, in
order. -/
theorem publish_round_go (f : Nat → Bool) :
    ∀ (evs : List OutboxEvent) (st : RelayState),
      ((st.db.outbox.map fun r => r.id).Nodup) →
      ((evs.foldl
          (fun st ev =>
            if f ev.id then st
            else ⟨mark_event_published st.db ev.id,
              st.bus ++ [(ev.event_type, ev.event_data)]⟩) st).db.outbox =
        st.db.outbox.map fun r =>
          if evs.any (fun ev => (!(f ev.id)) && (r.id == ev.id)) then
            ⟨r.id, r.order_id, r.event_type, r.event_data, "Y"⟩
          else r) ∧
      ((evs.foldl
          (fun st ev =>
            if f ev.id then st
            else ⟨mark_event_published st.db ev.id,
              st.bus ++ [(ev.event_type, ev.event_data)]⟩) st).bus =
        st.bus ++ (evs.filter fun ev => !(f ev.id)).map
          fun ev => (ev.event_type, ev.event_data))
  | [], st, _ => by simp
  | ev :: evs, st, h => by
    rw [List.foldl_cons]
    by_cases hf : f ev.id = true
    · rw [if_pos hf]
      obtain ⟨ih1, ih2⟩ := publish_round_go f evs st h
      refine ⟨?_, ?_⟩
      · rw [ih1]
        apply List.map_congr_left
        intro r _
        simp [List.any_cons, hf]
      · rw [ih2, List.filter_cons, if_neg (by simp [hf])]
    · replace hf : f ev.id = false := by revert hf; cases f ev.id <;> simp
      rw [if_neg (by simp [hf])]
      have hout' : (mark_event_published st.db ev.id).outbox =
          st.db.outbox.map fun r =>
            if r.id == ev.id then
              ⟨r.id, r.order_id, r.event_type, r.event_data, "Y"⟩ else r :=
        mark_published_map ev.id st.db.outbox h
      have hnodup' : (((⟨mark_event_published st.db ev.id,
          st.bus ++ [(ev.event_type, ev.event_data)]⟩ :
            RelayState)).db.outbox.map fun r => r.id).Nodup := by
        show ((mark_published ev.id st.db.outbox).map fun r => r.id).Nodup
        rw [mark_published_ids]
        exact h
      obtain ⟨ih1, ih2⟩ := publish_round_go f evs
        ⟨mark_event_published st.db ev.id,
          st.bus ++ [(ev.event_type, ev.event_data)]⟩ hnodup'
      refine ⟨?_, ?_⟩
      · rw [ih1]
        show (mark_event_published st.db ev.id).outbox.map _ = _
        rw [hout', List.map_map]
        apply List.map_congr_left
        intro r _
        by_cases hr : (r.id == ev.id) = true
        · by_cases h2 : evs.any (fun e2 => (!(f e2.id)) && (r.id == e2.id)) = true
          · simp [Function.comp, hr, h2, List.any_cons, hf]
          · simp [Function.comp, hr, h2, List.any_cons, hf]
        · replace hr : (r.id == ev.id) = false := by
            revert hr; cases r.id == ev.id <;> simp
          simp [Function.comp, hr, List.any_cons, hf]
      · rw [ih2]
        show (st.bus ++ [(ev.event_type, ev.event_data)]) ++ _ = _
        rw [List.filter_cons, if_pos (by simp [hf]), List.map_cons,
          List.append_assoc]
        rfl

end ECom.OrderSvc

namespace ECom.OrderSvc

/-- Saga handlers only append outbox rows, and every appended row starts
unpublished ("N") — no handler ever rewrites the published flag. -/
theorem handle_event_outbox_append (e : Event) (db : OrderDB) :
    ∃ newRows, (handle_event e db).outbox = db.outbox ++ newRows ∧
      ∀ r ∈ newRows, r.published = "N" := by
  by_cases hp : is_event_processed db e.event_id = true
  · refine ⟨[], ?_, by simp⟩
    have h := handlers_skip_processed e db hp
    rw [handle_event]
    split
    · rw [h.1, List.append_nil]
    split
    · rw [h.2.1, List.append_nil]
    split
    · rw [h.2.2.1, List.append_nil]
    split
    · rw [h.2.2.2.1, List.append_nil]
    split
    · rw [h.2.2.2.2.1, List.append_nil]
    split
    · rw [h.2.2.2.2.2, List.append_nil]
    · rw [List.append_nil]
  · replace hp : is_event_processed db e.event_id = false := by
      revert hp; cases is_event_processed db e.event_id <;> simp
    rw [handle_event]
    split
    · refine ⟨[⟨db.nextOutboxId, "ORD-" ++ toString db.nextOrderNo,
        "order.created",
        ⟨e.event_id, "order.created", e.correlation_id,
          "ORD-" ++ toString db.nextOrderNo, e.user_id, some e.items,
          some e.total_amount, none, none⟩, "N"⟩], ?_, by simp⟩
      simp [handle_cart_checkout_initiated, hp, create_order,
        add_outbox_event, mark_event_processed]
    split
    · cases hgo : get_order db e.order_id with
      | none => exact ⟨[], by simp [handle_inventory_reserved, hp, hgo], by simp⟩
      | some o =>
        refine ⟨[⟨db.nextOutboxId, o.order_id, "order.reservation_confirmed",
          ⟨e.event_id, "order.reservation_confirmed", e.correlation_id,
            e.order_id, o.user_id, none, some o.total_amount, none, none⟩,
          "N"⟩], ?_, by simp⟩
        simp [handle_inventory_reserved, hp, hgo, update_order_status,
          add_outbox_event, mark_event_processed]
    split
    · cases hgo : get_order db e.order_id with
      | none => exact ⟨[], by simp [handle_inventory_depleted, hp, hgo], by simp⟩
      | some o =>
        refine ⟨[⟨db.nextOutboxId, o.order_id, "order.cancelled",
          ⟨e.event_id, "order.cancelled", e.correlation_id, e.order_id,
            o.user_id, none, none,
            some (e.reason.getD
              ("Out of stock or insufficient stock: " ++ e.product_id)),
            some "inventory_depleted"⟩, "N"⟩], ?_, by simp⟩
        simp [handle_inventory_depleted, hp, hgo, update_order_status,
          add_outbox_event, mark_event_processed]
    split
    · cases hgo : get_order db e.order_id with
      | none => exact ⟨[], by simp [handle_payment_processed, hp, hgo], by simp⟩
      | some o =>
        refine ⟨[⟨db.nextOutboxId, e.order_id, "order.confirmed",
          ⟨e.event_id, "order.confirmed", e.correlation_id, e.order_id,
            e.user_id, none, none, none, none⟩, "N"⟩], ?_, by simp⟩
        simp [handle_payment_processed, hp, hgo, update_order_status,
          add_outbox_event, mark_event_processed]
    split
    · cases hgo : get_order db e.order_id with
      | none => exact ⟨[], by simp [handle_payment_failed, hp, hgo], by simp⟩
      | some o =>
        refine ⟨[⟨db.nextOutboxId, e.order_id, "order.cancelled",
          ⟨e.event_id, "order.cancelled", e.correlation_id, e.order_id,
            e.user_id, none, none,
            some (e.reason.getD "Payment processing failed"),
            some "payment_failed"⟩, "N"⟩], ?_, by simp⟩
        simp [handle_payment_failed, hp, hgo, update_order_status,
          add_outbox_event, mark_event_processed]
    split
    · cases hgo : get_order db e.order_id with
      | none => exact ⟨[], by simp [handle_order_fulfilled, hp, hgo], by simp⟩
      | some o =>
        refine ⟨[], ?_, by simp⟩
        simp [handle_order_fulfilled, hp, hgo, update_order_status,
          mark_event_processed]
    · exact ⟨[], by simp, by simp⟩

end ECom.OrderSvc

/-- C8: in one relay pass a row is marked published exactly when it was
unpublished and its bus publish succeeded — a raised publish leaves the
row at "N" so the next get_unpublished_events poll picks it up again —
and the bus receives exactly the successfully published events; the
published flag goes only from "N" to "Y": already-"Y" rows are untouched
by the relay, and the saga handlers only ever append fresh "N" rows. -/
theorem C8_relay_marks_only_after_publish (f : Nat → Bool)
    (s : OrderSvc.RelayState)
    (hnodup : (s.db.outbox.map fun r => r.id).Nodup) :
    ((OrderSvc.publish_round f s).db.outbox =
      s.db.outbox.map fun r =>
        if r.published == "N" && !(f r.id) then
          ⟨r.id, r.order_id, r.event_type, r.event_data, "Y"⟩
        else r)
    ∧ ((OrderSvc.publish_round f s).bus =
        s.bus ++ ((OrderSvc.get_unpublished_events s.db).filter
          fun ev => !(f ev.id)).map fun ev => (ev.event_type, ev.event_data))
    ∧ (∀ r ∈ s.db.outbox, r.published = "N" → f r.id = true →
        r ∈ OrderSvc.get_unpublished_events (OrderSvc.publish_round f s).db)
    ∧ (∀ (e : Event) (db : OrderSvc.OrderDB), ∃ newRows,
        (OrderSvc.handle_event e db).outbox = db.outbox ++ newRows ∧
        ∀ nr ∈ newRows, nr.published = "N") := by
  obtain ⟨h1, h2⟩ := OrderSvc.publish_round_go f
    (OrderSvc.get_unpublished_events s.db) s hnodup
  have hchar : (OrderSvc.publish_round f s).db.outbox =
      s.db.outbox.map fun r =>
        if r.published == "N" && !(f r.id) then
          ⟨r.id, r.order_id, r.event_type, r.event_data, "Y"⟩
        else r := by
    rw [OrderSvc.publish_round, h1]
    apply List.map_congr_left
    intro r hr
    by_cases hc : (r.published == "N" && !(f r.id)) = true
    · obtain ⟨hcN, hcf⟩ := Bool.and_eq_true_iff.mp hc
      have hrev : r ∈ OrderSvc.get_unpublished_events s.db :=
        List.mem_filter.mpr ⟨hr, hcN⟩
      have hany : ((OrderSvc.get_unpublished_events s.db).any
          fun ev => (!(f ev.id)) && (r.id == ev.id)) = true :=
        List.any_eq_true.mpr ⟨r, hrev, by simp [hcf]⟩
      rw [if_pos hany, if_pos hc]
    · replace hc : (r.published == "N" && !(f r.id)) = false := by
        revert hc; cases r.published == "N" && !(f r.id) <;> simp
      have hany : ((OrderSvc.get_unpublished_events s.db).any
          fun ev => (!(f ev.id)) && (r.id == ev.id)) = false := by
        cases hany : (OrderSvc.get_unpublished_events s.db).any
            fun ev => (!(f ev.id)) && (r.id == ev.id) with
        | false => rfl
        | true =>
          exfalso
          obtain ⟨ev, hev, hcond⟩ := List.any_eq_true.mp hany
          obtain ⟨hfev, hid⟩ := Bool.and_eq_true_iff.mp hcond
          have hevmem := (List.mem_filter.mp hev).1
          have hevN := (List.mem_filter.mp hev).2
          have hideq : r.id = ev.id := by simpa using hid
          have hre : r = ev := List.inj_on_of_nodup_map hnodup hr hevmem hideq
          rw [← hre] at hevN hfev
          rw [hevN, hfev] at hc
          simp at hc
      rw [if_neg (by simp [hany]), if_neg (by simp [hc])]
  refine ⟨hchar, by rw [OrderSvc.publish_round]; exact h2, ?_,
    fun e db => OrderSvc.handle_event_outbox_append e db⟩
  intro r hr hrN hrf
  have himg : (fun r : OrderSvc.OutboxEvent =>
      if r.published == "N" && !(f r.id) then
        (⟨r.id, r.order_id, r.event_type, r.event_data, "Y"⟩ :
          OrderSvc.OutboxEvent)
      else r) r = r := by
    simp [hrN, hrf]
  apply List.mem_filter.mpr
  constructor
  · rw [hchar]
    exact himg ▸ List.mem_map_of_mem _ hr
  · simp [hrN]

/-- Witness for C8 at a concrete input: two unpublished rows, the
publish of row 1 raises — row 0 is marked "Y" and put on the bus, row 1
stays "N" and is found by the next poll. -/
theorem C8_relay_marks_only_after_publish_witness :
    ((OrderSvc.publish_round (fun id => id == 1) ECom.sampleRelay).db.outbox =
      ECom.sampleRelay.db.outbox.map fun r =>
        if r.published == "N" && !(r.id == 1) then
          ⟨r.id, r.order_id, r.event_type, r.event_data, "Y"⟩
        else r) ∧
    (⟨1, "ORD-2", "order.created", ECom.samplePayload, "N"⟩ :
        OrderSvc.OutboxEvent) ∈
      OrderSvc.get_unpublished_events
        (OrderSvc.publish_round (fun id => id == 1) ECom.sampleRelay).db := by
  have h := C8_relay_marks_only_after_publish (fun id => id == 1)
    ECom.sampleRelay (by decide)
  exact ⟨h.1, h.2.2.1 ⟨1, "ORD-2", "order.created", ECom.samplePayload, "N"⟩
    (by decide) rfl rfl⟩

namespace ECom.Concurrent

/-- The invariant holds of the initial state. -/
theorem init_inv (S : Int) (qtys : List Int) (hS : 0 ≤ S) :
    Inv S (init S qtys) := by
  refine ⟨?_, hS, ?_⟩
  · have hz : successSum (init S qtys) = 0 := by
      rw [successSum, init, List.map_map]
      apply List.sum_eq_zero
      intro x hx
      simp only [List.mem_map, Function.comp] at hx
      obtain ⟨q, _, rfl⟩ := hx
      simp
    rw [hz, add_zero]
    rfl
  · intro t ht a os ov hph
    rw [init] at ht
    simp only [List.mem_map] at ht
    obtain ⟨q, _, rfl⟩ := ht
    simp at hph

/-- Every atomic step preserves the invariant. -/
theorem step_inv {S : Int} {s s' : SysState} (h : Inv S s) (hs : Step s s') :
    Inv S s' := by
  obtain ⟨h1, h2, h3⟩ := h
  cases hs with
  | read_ok hlt =>
    rename_i stk ver l1 l2 q a
    dsimp only at h1 h2 h3
    have e0 : successSum ⟨stk, ver, l1 ++ ⟨q, .ready a⟩ :: l2⟩ =
        (l1.map fun t => if t.phase = .succeeded then t.qty else 0).sum +
        (l2.map fun t => if t.phase = .succeeded then t.qty else 0).sum := by
      simp [successSum, List.map_append, List.sum_append]
    have e1 : successSum ⟨stk, ver, l1 ++ ⟨q, .observed a stk ver⟩ :: l2⟩ =
        (l1.map fun t => if t.phase = .succeeded then t.qty else 0).sum +
        (l2.map fun t => if t.phase = .succeeded then t.qty else 0).sum := by
      simp [successSum, List.map_append, List.sum_append]
    rw [e0] at h1
    refine ⟨?_, h2, ?_⟩
    · show stk + _ = S
      rw [e1]
      exact h1
    · intro t' ht' a' os' ov' hph
      show ov' ≤ ver ∧ (ov' = ver → os' = stk) ∧ t'.qty ≤ os'
      rcases List.mem_append.mp ht' with hmem | hmem
      · exact h3 t' (by simp [hmem]) a' os' ov' hph
      · rcases List.mem_cons.mp hmem with rfl | hmem
        · dsimp only at hph
          injection hph with ea eb ec
          subst ea; subst eb; subst ec
          refine ⟨le_refl _, fun _ => rfl, ?_⟩
          dsimp only
          omega
        · exact h3 t' (by simp [hmem]) a' os' ov' hph
  | read_insufficient hlt =>
    rename_i stk ver l1 l2 q a
    dsimp only at h1 h2 h3
    have e0 : successSum ⟨stk, ver, l1 ++ ⟨q, .ready a⟩ :: l2⟩ =
        (l1.map fun t => if t.phase = .succeeded then t.qty else 0).sum +
        (l2.map fun t => if t.phase = .succeeded then t.qty else 0).sum := by
      simp [successSum, List.map_append, List.sum_append]
    have e1 : successSum ⟨stk, ver, l1 ++ ⟨q, .failed⟩ :: l2⟩ =
        (l1.map fun t => if t.phase = .succeeded then t.qty else 0).sum +
        (l2.map fun t => if t.phase = .succeeded then t.qty else 0).sum := by
      simp [successSum, List.map_append, List.sum_append]
    rw [e0] at h1
    refine ⟨?_, h2, ?_⟩
    · show stk + _ = S
      rw [e1]
      exact h1
    · intro t' ht' a' os' ov' hph
      show ov' ≤ ver ∧ (ov' = ver → os' = stk) ∧ t'.qty ≤ os'
      rcases List.mem_append.mp ht' with hmem | hmem
      · exact h3 t' (by simp [hmem]) a' os' ov' hph
      · rcases List.mem_cons.mp hmem with rfl | hmem
        · simp at hph
        · exact h3 t' (by simp [hmem]) a' os' ov' hph
  | update_ok =>
    rename_i stk ver l1 l2 q os a
    dsimp only at h1 h2 h3
    have hact := h3 ⟨q, .observed a os ver⟩ (by simp) a os ver rfl
    dsimp only at hact
    obtain ⟨-, himp, hqos⟩ := hact
    have hos : os = stk := himp rfl
    have hq : q ≤ stk := by omega
    have e0 : successSum ⟨stk, ver, l1 ++ ⟨q, .observed a os ver⟩ :: l2⟩ =
        (l1.map fun t => if t.phase = .succeeded then t.qty else 0).sum +
        (l2.map fun t => if t.phase = .succeeded then t.qty else 0).sum := by
      simp [successSum, List.map_append, List.sum_append]
    have e1 : successSum ⟨stk - q, ver + 1, l1 ++ ⟨q, .succeeded⟩ :: l2⟩ =
        (l1.map fun t => if t.phase = .succeeded then t.qty else 0).sum +
        (l2.map fun t => if t.phase = .succeeded then t.qty else 0).sum + q := by
      simp [successSum, List.map_append, List.sum_append]
      ring
    rw [e0] at h1
    refine ⟨?_, ?_, ?_⟩
    · show stk - q + _ = S
      rw [e1]
      omega
    · show (0 : Int) ≤ stk - q
      omega
    · intro t' ht' a' os' ov' hph
      show ov' ≤ ver + 1 ∧ (ov' = ver + 1 → os' = stk - q) ∧ t'.qty ≤ os'
      rcases List.mem_append.mp ht' with hmem | hmem
      · obtain ⟨hle, -, hq'⟩ := h3 t' (by simp [hmem]) a' os' ov' hph
        exact ⟨by omega, by intro hov; omega, hq'⟩
      · rcases List.mem_cons.mp hmem with rfl | hmem
        · simp at hph
        · obtain ⟨hle, -, hq'⟩ := h3 t' (by simp [hmem]) a' os' ov' hph
          exact ⟨by omega, by intro hov; omega, hq'⟩
  | update_conflict_retry hov ha =>
    rename_i stk ver l1 l2 q os a ov
    dsimp only at h1 h2 h3
    have e0 : successSum ⟨stk, ver, l1 ++ ⟨q, .observed a os ov⟩ :: l2⟩ =
        (l1.map fun t => if t.phase = .succeeded then t.qty else 0).sum +
        (l2.map fun t => if t.phase = .succeeded then t.qty else 0).sum := by
      simp [successSum, List.map_append, List.sum_append]
    have e1 : successSum ⟨stk, ver, l1 ++ ⟨q, .ready (a + 1)⟩ :: l2⟩ =
        (l1.map fun t => if t.phase = .succeeded then t.qty else 0).sum +
        (l2.map fun t => if t.phase = .succeeded then t.qty else 0).sum := by
      simp [successSum, List.map_append, List.sum_append]
    rw [e0] at h1
    refine ⟨?_, h2, ?_⟩
    · show stk + _ = S
      rw [e1]
      exact h1
    · intro t' ht' a' os' ov' hph
      show ov' ≤ ver ∧ (ov' = ver → os' = stk) ∧ t'.qty ≤ os'
      rcases List.mem_append.mp ht' with hmem | hmem
      · exact h3 t' (by simp [hmem]) a' os' ov' hph
      · rcases List.mem_cons.mp hmem with rfl | hmem
        · simp at hph
        · exact h3 t' (by simp [hmem]) a' os' ov' hph
  | update_conflict_fail hov ha =>
    rename_i stk ver l1 l2 q os a ov
    dsimp only at h1 h2 h3
    have e0 : successSum ⟨stk, ver, l1 ++ ⟨q, .observed a os ov⟩ :: l2⟩ =
        (l1.map fun t => if t.phase = .succeeded then t.qty else 0).sum +
        (l2.map fun t => if t.phase = .succeeded then t.qty else 0).sum := by
      simp [successSum, List.map_append, List.sum_append]
    have e1 : successSum ⟨stk, ver, l1 ++ ⟨q, .failed⟩ :: l2⟩ =
        (l1.map fun t => if t.phase = .succeeded then t.qty else 0).sum +
        (l2.map fun t => if t.phase = .succeeded then t.qty else 0).sum := by
      simp [successSum, List.map_append, List.sum_append]
    rw [e0] at h1
    refine ⟨?_, h2, ?_⟩
    · show stk + _ = S
      rw [e1]
      exact h1
    · intro t' ht' a' os' ov' hph
      show ov' ≤ ver ∧ (ov' = ver → os' = stk) ∧ t'.qty ≤ os'
      rcases List.mem_append.mp ht' with hmem | hmem
      · exact h3 t' (by simp [hmem]) a' os' ov' hph
      · rcases List.mem_cons.mp hmem with rfl | hmem
        · simp at hph
        · exact h3 t' (by simp [hmem]) a' os' ov' hph

/-- The invariant holds of every reachable state. -/
theorem reachable_inv {S : Int} {s s' : SysState} (h : Inv S s)
    (hr : Reachable s s') : Inv S s' := by
  induction hr with
  | refl => exact h
  | tail _ hstep ih => exact step_inv ih hstep

end ECom.Concurrent

/-- C2: for a product with initial stock S ≥ 0, under any interleaving
of any number of concurrent reserve_stock callers, the sum of the
quantities of the calls that returned success never exceeds S, and the
stock never goes negative — the version-guarded conditional UPDATE
admits at most one successful writer per observed version. -/
theorem C2_no_overselling (S : Int) (qtys : List Int) (hS : 0 ≤ S)
    (s : Concurrent.SysState)
    (hr : Concurrent.Reachable (Concurrent.init S qtys) s) :
    Concurrent.successSum s ≤ S ∧ 0 ≤ s.stock := by
  obtain ⟨h1, h2, -⟩ :=
    Concurrent.reachable_inv (Concurrent.init_inv S qtys hS) hr
  exact ⟨by omega, h2⟩

/-- Witness for C2 at a concrete input: with stock 2 and one caller
requesting quantity 1, the trace read — conditional update reaches the
succeeded state; the reserved total 1 stays below 2 and stock stays
nonnegative. -/
theorem C2_no_overselling_witness :
    Concurrent.Reachable (Concurrent.init 2 [1])
      ⟨1, 1, [⟨1, Concurrent.Phase.succeeded⟩]⟩ ∧
    Concurrent.successSum ⟨1, 1, [⟨1, Concurrent.Phase.succeeded⟩]⟩ ≤ 2 ∧
    0 ≤ (⟨1, 1, [⟨1, Concurrent.Phase.succeeded⟩]⟩ :
      Concurrent.SysState).stock := by
  have s1 : Concurrent.Step ⟨2, 0, [⟨1, Concurrent.Phase.ready 0⟩]⟩
      ⟨2, 0, [⟨1, Concurrent.Phase.observed 0 2 0⟩]⟩ :=
    @Concurrent.Step.read_ok 2 0 [] [] 1 0 (by norm_num)
  have s2 : Concurrent.Step ⟨2, 0, [⟨1, Concurrent.Phase.observed 0 2 0⟩]⟩
      ⟨1, 1, [⟨1, Concurrent.Phase.succeeded⟩]⟩ :=
    @Concurrent.Step.update_ok 2 0 [] [] 1 2 0
  have hr : Concurrent.Reachable (Concurrent.init 2 [1])
      ⟨1, 1, [⟨1, Concurrent.Phase.succeeded⟩]⟩ :=
    Relation.ReflTransGen.tail (Relation.ReflTransGen.tail
      Relation.ReflTransGen.refl s1) s2
  exact ⟨hr, C2_no_overselling 2 [1] (by norm_num) _ hr⟩
